import Mathlib

/-!
# Verification of the ember-concurrency task-instance execution engine

A shallow embedding of the engine in `state.js` (under
`src/addon`, private externals, `task-instance`): the `TaskInstanceState`
class.  The engine is single-threaded and
cooperative: every method mutates one record of state and invokes external
collaborators (the Delegate, the Environment, disposers, finalize callbacks).
We model the mutable instance as a Lean structure that is threaded through
every method, and every call to an external collaborator as an `Event`
appended to an observable trace carried inside the structure.  Calls to
`env.async(fn)` are modelled by appending the deferred action (as data) to a
`pending` queue; a scheduler step pops and runs the head of that queue.

Opaque JavaScript function values (disposers, finalize callbacks) are
modelled as numeric identifiers: running one is an observable `Event`.
-/

set_option autoImplicit false

namespace EmberConcurrency

/-- Terminal completion outcome, from `completion-states.js` (imported by the
engine; the module itself only declares the three tokens, per the spec's
Outcome component: success | error | cancel). -/
inductive CompletionState where
  | COMPLETION_SUCCESS
  | COMPLETION_ERROR
  | COMPLETION_CANCEL
deriving DecidableEq, Repr

/-- The four resumption kinds from `utils.js` (`YIELDABLE_CONTINUE`,
`YIELDABLE_THROW`, `YIELDABLE_RETURN`, `YIELDABLE_CANCEL`). -/
inductive YieldResume where
  | YIELDABLE_CONTINUE
  | YIELDABLE_THROW
  | YIELDABLE_RETURN
  | YIELDABLE_CANCEL
deriving DecidableEq, Repr

/-- Cancellation-request kinds from `cancel-request.js`. -/
inductive CancelKind where
  | CANCEL_KIND_EXPLICIT
  | CANCEL_KIND_YIELDED
deriving DecidableEq, Repr

/-- Perform types declared at the top of `state.js`. -/
inductive PerformType where
  | PERFORM_TYPE_DEFAULT
  | PERFORM_TYPE_UNLINKED
  | PERFORM_TYPE_LINKED
deriving DecidableEq, Repr

/-- Behaviour of a custom-suspension handler stored under the reserved
`yieldableSymbol` key of a yielded value: when invoked it either throws
synchronously (carrying an opaque error identified by a `Nat` tag), returns a
function (a disposer, identified by a `Nat` tag), or returns a non-function
value (ignored by `addDisposer`). -/
inductive YieldableResult where
  | throws (e : Nat)
  | returnsDisposer (d : Nat)
  | returnsNonFunction
deriving DecidableEq, Repr

/-- The structural features of a JavaScript object that `state.js` inspects
on yielded values:
* `ecCancel`: `some d` iff the object has an `__ec_cancel__` field that is a
  function (the disposer `d`); `none` covers an absent or non-function field;
* `yieldable`: `some r` iff the object has a truthy `yieldableSymbol` field,
  with `r` describing what invoking it does;
* `hasThen`: whether `typeof value.then === 'function'`;
* `isLinkedPerform`: whether `value._performType === PERFORM_TYPE_LINKED`;
* `nameIsTaskCancelation`: whether `value.name === 'TaskCancelation'`. -/
structure JSFields where
  ecCancel : Option Nat := none
  yieldable : Option YieldableResult := none
  hasThen : Bool := false
  isLinkedPerform : Bool := false
  nameIsTaskCancelation : Bool := false
deriving DecidableEq, Repr

/-- JavaScript values as far as the engine can distinguish them:
* `empty` — any falsy value (`undefined`, `null`, `0`, `''`, `false`);
* `obj fields payload` — a truthy value that is not a `RawValue`, with the
  structural `fields` the engine inspects and an opaque `payload` identity;
* `raw fields inner` — an instance of the `RawValue` wrapper class from
  `utils.js` wrapping `inner` (its own object fields are also carried, to
  express that the engine ignores them);
* `cancelError reason` — an `Error` whose `name` is `'TaskCancelation'`, as
  built by `finalizeWithCancel`;
* `sentinel` — the private `CANCEL_RETURN_VALUE_SENTINEL` object. -/
inductive JSVal where
  | empty
  | obj (fields : JSFields) (payload : Nat)
  | raw (fields : JSFields) (inner : JSVal)
  | cancelError (reason : String)
  | sentinel
deriving DecidableEq, Repr

namespace JSVal

/-- JavaScript truthiness of a modelled value. -/
def truthy : JSVal → Bool
  | .empty => false
  | _ => true

/-- The structural fields the engine reads off a value.  A falsy value has
none; the cancellation `Error` has only its distinguished `name`; the
sentinel is a fresh empty object. -/
def fields : JSVal → JSFields
  | .obj f _ => f
  | .raw f _ => f
  | .cancelError _ => { nameIsTaskCancelation := true }
  | _ => {}

/-- `instanceof RawValue` test together with the wrapped `.value`. -/
def rawInner? : JSVal → Option JSVal
  | .raw _ i => some i
  | _ => none

/-- Injection of an opaque error tag into values (used where an exception
thrown by external code enters the engine). -/
def ofNat (n : Nat) : JSVal := .obj {} n

end JSVal

/-- The console warning text for a `.linked()` perform that was not
immediately yielded (abbreviated). -/
def linkedWarningText : String :=
  "You performed a .linked() task without immediately yielding/returning it."

/-- `didCancel(e)` from `state.js`: `e && e.name === TASK_CANCELATION_NAME`. -/
def didCancel (e : JSVal) : Bool :=
  e.truthy && e.fields.nameIsTaskCancelation

/-- `didCancel` applied to a possibly-`undefined` stored error. -/
def didCancelOpt : Option JSVal → Bool
  | none => false
  | some e => didCancel e

/-- The immutable cancellation request record (`cancel-request.js`, not under
`src/`). Modelled from the spec: "immutable record of why/how cancellation
was requested", kind ∈ EXPLICIT/YIELDED, optional reason. -/
structure CancelRequest where
  kind : CancelKind
  reason : Option JSVal := none
deriving DecidableEq, Repr

/-- One step result of the Resumable Body, per the external interface in the
spec: `step(resumeValue, resumeKind) -> { done, value, errored }`. -/
structure StepResult where
  done : Bool := false
  value : JSVal := .empty
  errored : Bool := false
deriving DecidableEq, Repr

/-- Modelled from the spec: the `GeneratorState` class (`generator-state.js`,
not under `src/`) wrapping the Resumable Body.  The spec specifies it only at
its interface: `step(resumeValue, resumeKind) -> {done, value, errored}`,
"must never be stepped again once `done` is true", plus a readable `done`
flag.  We model the body's behaviour as a pre-recorded script of step
results, which ranges over all possible behaviours of the opaque body; the
`done` flag mirrors the last reported `done`. -/
structure GeneratorState where
  done : Bool := false
  script : List StepResult := []
deriving DecidableEq, Repr

/-- One `step` of the Resumable Body: report the next scripted result (an
exhausted script reports a `done` step, mirroring an iterator that keeps
answering `done: true`). -/
def GeneratorState.step (g : GeneratorState) (_nextValue : JSVal)
    (_iteratorMethod : YieldResume) : StepResult × GeneratorState :=
  match g.script with
  | [] => ({ done := true }, { g with done := true, script := [] })
  | r :: rest => (r, { done := r.done, script := rest })

/-- The shared `this.state` record.  Modelled from the spec for
`INITIAL_STATE` (`initial-state.js`, not under `src/`): all flags start
false and all slots start absent; `state.js` itself only ever merges
partial updates into it via `setState`.  `cancelReason` is the extra field
merged in by `finalizeWithCancel`. -/
structure SharedState where
  hasStarted : Bool := false
  isFinished : Bool := false
  isSuccessful : Bool := false
  isError : Bool := false
  isCanceled : Bool := false
  completionState : Option CompletionState := none
  value : Option JSVal := none
  error : Option JSVal := none
  cancelReason : Option String := none
deriving DecidableEq, Repr

/-- A partial state update, as passed to `setState` and merged with
`Object.assign`: `some` fields overwrite, `none` fields are absent from the
update object. -/
structure StatePatch where
  hasStarted : Option Bool := none
  isFinished : Option Bool := none
  isSuccessful : Option Bool := none
  isError : Option Bool := none
  isCanceled : Option Bool := none
  completionState : Option CompletionState := none
  value : Option JSVal := none
  error : Option JSVal := none
  cancelReason : Option String := none
deriving DecidableEq, Repr

/-- `Object.assign(this.state, patch)`. -/
def applyPatch (s : SharedState) (p : StatePatch) : SharedState where
  hasStarted := p.hasStarted.getD s.hasStarted
  isFinished := p.isFinished.getD s.isFinished
  isSuccessful := p.isSuccessful.getD s.isSuccessful
  isError := p.isError.getD s.isError
  isCanceled := p.isCanceled.getD s.isCanceled
  completionState := p.completionState.or s.completionState
  value := p.value.or s.value
  error := p.error.or s.error
  cancelReason := p.cancelReason.or s.cancelReason

/-- Observable effects: every call the engine makes into an external
collaborator (Delegate, Environment, disposers, finalize callbacks,
subscriptions on yielded values). -/
inductive Event where
  | setState (p : StatePatch)
  | onStarted
  | onSuccess
  | onError (e : Option JSVal)
  | onCancel (r : Option JSVal)
  | ranDisposer (d : Nat)
  | ranFinalizeCallback (c : Nat)
  | deferResolved (v : Option JSVal)
  | deferRejected (e : Option JSVal)
  | reportUncaughtRejection (e : Option JSVal)
  | consoleLog (s : String)
  | consoleWarn (s : String)
  | genStep (k : YieldResume) (v : JSVal)
  | invokedYieldable (ticket : Nat)
  | subscribedThenable (ticket : Nat) (v : JSVal)
deriving DecidableEq, Repr

/-- A deferred action passed to `env.async(fn)`, kept as data in the pending
queue: either a scheduled `proceedSync` re-entry (from `proceedAsync`) or the
delayed unhandled-task-error check (from
`maybeThrowUnhandledTaskErrorLater`). -/
inductive AsyncAction where
  | proceed (k : YieldResume) (v : JSVal)
  | unhandledErrorCheck
deriving DecidableEq, Repr

/-- The `TaskInstanceState` instance: every mutable field of the class, plus
the modelled environment (`pending` queue of `env.async` actions, Boolean
result of `env.globalDebuggingEnabled()`) and the observable `events`
trace. -/
structure TaskInstanceState where
  generatorState : GeneratorState
  state : SharedState := {}
  index : Nat := 1
  disposers : List Nat := []
  finalizeCallbacks : List Nat := []
  cancelRequest : Option CancelRequest := none
  performType : PerformType := .PERFORM_TYPE_DEFAULT
  debug : Bool := false
  envDebug : Bool := false
  defer : Bool := false
  asyncErrorsHandled : Bool := false
  expectsLinkedYield : Bool := false
  pending : List AsyncAction := []
  events : List Event := []
deriving DecidableEq, Repr

/-- The constructor of `TaskInstanceState`: `state` is a copy of
`INITIAL_STATE`, `index` is 1, the lists are empty, `cancelRequest` is
null. -/
def initialTIS (g : GeneratorState) (performType : PerformType)
    (debug envDebug : Bool) : TaskInstanceState :=
  { generatorState := g, performType := performType, debug := debug,
    envDebug := envDebug }

namespace TaskInstanceState

/-- Append one observable external call to the trace. -/
def emit (t : TaskInstanceState) (e : Event) : TaskInstanceState :=
  { t with events := t.events ++ [e] }

/-- `setState(state)`: merge into `this.state`, then `delegate.setState`. -/
def setState (t : TaskInstanceState) (p : StatePatch) : TaskInstanceState :=
  emit { t with state := applyPatch t.state p } (.setState p)

/-- `advanceIndex(index)`: succeeds (returning the incremented — hence
truthy — index) iff the presented ticket equals the current index. -/
def advanceIndex (t : TaskInstanceState) (index : Nat) :
    Bool × TaskInstanceState :=
  if t.index = index then (true, { t with index := t.index + 1 })
  else (false, t)

/-- `requestCancel(request)`: accepted only if no request exists yet and the
instance is not finished. -/
def requestCancel (t : TaskInstanceState) (request : CancelRequest) :
    Bool × TaskInstanceState :=
  if t.cancelRequest.isSome = true ∨ t.state.isFinished = true then (false, t)
  else (true, { t with cancelRequest := some request })

/-- `addDisposer(maybeDisposer)`: push iff the argument is a function. -/
def addDisposer (t : TaskInstanceState) (maybeDisposer : Option Nat) :
    TaskInstanceState :=
  match maybeDisposer with
  | some d => { t with disposers := t.disposers ++ [d] }
  | none => t

/-- `dispose(reason)`: drain the disposers attached to the most recent
yield — clear the list, then run each disposer in order (each run is an
observable call into external code). -/
def dispose (t : TaskInstanceState) (_reason : Option JSVal) :
    TaskInstanceState :=
  if t.disposers.isEmpty then t
  else { t with disposers := [],
                events := t.events ++ t.disposers.map Event.ranDisposer }

/-- `maybeResolveDefer()`: if a deferred result exists and the instance is
finished, settle it according to the completion state. -/
def maybeResolveDefer (t : TaskInstanceState) : TaskInstanceState :=
  if t.defer = false ∨ t.state.isFinished = false then t
  else if t.state.completionState = some .COMPLETION_SUCCESS then
    emit t (.deferResolved t.state.value)
  else
    emit t (.deferRejected t.state.error)

/-- `maybeThrowUnhandledTaskErrorLater()`: if the error outcome is
unobserved (no deferred result requested) and not a cancellation, schedule a
later turn that re-checks and reports the error as uncaught. -/
def maybeThrowUnhandledTaskErrorLater (t : TaskInstanceState) :
    TaskInstanceState :=
  if t.asyncErrorsHandled = false ∧
     t.state.completionState = some .COMPLETION_ERROR ∧
     didCancelOpt t.state.error = false then
    { t with pending := t.pending ++ [.unhandledErrorCheck] }
  else t

/-- `runFinalizeCallbacks()`: run every registered callback in registration
order, clear the list, then `maybeResolveDefer` and
`maybeThrowUnhandledTaskErrorLater`. -/
def runFinalizeCallbacks (t : TaskInstanceState) : TaskInstanceState :=
  let t1 := { t with
    events := t.events ++ t.finalizeCallbacks.map Event.ranFinalizeCallback,
    finalizeCallbacks := [] }
  maybeThrowUnhandledTaskErrorLater (maybeResolveDefer t1)

/-- `dispatchFinalizeEvents(completionState)`: exactly one terminal Delegate
event, chosen by the completion state. -/
def dispatchFinalizeEvents (t : TaskInstanceState)
    (completionState : Option CompletionState) : TaskInstanceState :=
  match completionState with
  | some .COMPLETION_SUCCESS => emit t .onSuccess
  | some .COMPLETION_ERROR => emit t (.onError t.state.error)
  | some .COMPLETION_CANCEL =>
      emit t (.onCancel (t.cancelRequest.bind CancelRequest.reason))
  | none => t

/-- `finalizeShared(state)`: advance `index` once more, force
`isFinished: true` into the patch, merge it, run the finalize callbacks,
dispatch the terminal event. -/
def finalizeShared (t : TaskInstanceState) (state : StatePatch) :
    TaskInstanceState :=
  let t1 := { t with index := t.index + 1 }
  let p := { state with isFinished := some true }
  let t2 := setState t1 p
  let t3 := runFinalizeCallbacks t2
  dispatchFinalizeEvents t3 p.completionState

/-- `finalizeWithCancel()`: format the reason via the Delegate, build the
distinguished by-name-identifiable cancellation error, optionally log, and
finalize with the cancel outcome.  The Delegate's `formatCancelReason` is
external; the engine treats the returned string opaquely, so it is modelled
as a fixed string. -/
def finalizeWithCancel (t : TaskInstanceState) : TaskInstanceState :=
  let cancelReason := "TaskCancelation"
  let error := JSVal.cancelError cancelReason
  let t1 := if t.debug = true ∨ t.envDebug = true then
    emit t (.consoleLog cancelReason) else t
  finalizeShared t1
    { isCanceled := some true, completionState := some .COMPLETION_CANCEL,
      error := some error, cancelReason := some cancelReason }

/-- `finalize(value, completionState)`: a pending cancel request always
pre-empts; otherwise record the natural outcome. -/
def finalize (t : TaskInstanceState) (value : JSVal)
    (completionState : CompletionState) : TaskInstanceState :=
  if t.cancelRequest.isSome = true then finalizeWithCancel t
  else
    let state : StatePatch :=
      match completionState with
      | .COMPLETION_SUCCESS =>
          { completionState := some .COMPLETION_SUCCESS,
            isSuccessful := some true, value := some value }
      | .COMPLETION_ERROR =>
          { completionState := some .COMPLETION_ERROR,
            isError := some true, error := some value }
      | .COMPLETION_CANCEL =>
          { completionState := some .COMPLETION_CANCEL, error := some value }
    finalizeShared t state

/-- `proceedAsync(yieldResumeType, value)`: advance the index (always
succeeds — the current index is presented), then defer the re-entry into
`proceedSync` through `env.async`. -/
def proceedAsync (t : TaskInstanceState) (yieldResumeType : YieldResume)
    (value : JSVal) : TaskInstanceState :=
  let t1 := (advanceIndex t t.index).2
  { t1 with pending := t1.pending ++ [.proceed yieldResumeType value] }

/-- `proceedWithCancelAsync()`: forced RETURN with the private sentinel. -/
def proceedWithCancelAsync (t : TaskInstanceState) : TaskInstanceState :=
  proceedAsync t .YIELDABLE_RETURN .sentinel

/-- `proceedWithSimpleValue(yieldedValue)`. -/
def proceedWithSimpleValue (t : TaskInstanceState) (yieldedValue : JSVal) :
    TaskInstanceState :=
  proceedAsync t .YIELDABLE_CONTINUE yieldedValue

/-- `invokeYieldable(yieldedValue)`: invoke the custom-suspension handler
with the host context and the current ticket; capture a returned function as
a disposer; a synchronous throw is routed to
`env.reportUncaughtRejection`. -/
def invokeYieldable (t : TaskInstanceState) (yieldedValue : JSVal) :
    TaskInstanceState :=
  match yieldedValue.fields.yieldable with
  | some (.throws e) =>
      emit (emit t (.invokedYieldable t.index))
        (.reportUncaughtRejection (some (JSVal.ofNat e)))
  | some (.returnsDisposer d) =>
      addDisposer (emit t (.invokedYieldable t.index)) (some d)
  | some .returnsNonFunction =>
      addDisposer (emit t (.invokedYieldable t.index)) none
  | none => t

/-- `handleYieldedUnknownThenable(thenable)`: capture the current index as
the resume ticket and subscribe; the thenable later resumes through
`proceedChecked` with that ticket (external). -/
def handleYieldedUnknownThenable (t : TaskInstanceState) (thenable : JSVal) :
    TaskInstanceState :=
  emit t (.subscribedThenable t.index thenable)

/-- `handleYieldedValue(stepResult)`: the Yield Classifier.  In source
order: a falsy value continues immediately; a `RawValue` is unwrapped and
continues immediately; otherwise the `__ec_cancel__` disposer field is
captured, then the custom-suspension marker, then a thenable `then`, then
plain value. -/
def handleYieldedValue (t : TaskInstanceState) (stepResult : StepResult) :
    TaskInstanceState :=
  let yieldedValue := stepResult.value
  if yieldedValue.truthy = false then
    proceedWithSimpleValue t yieldedValue
  else
    match yieldedValue.rawInner? with
    | some inner => proceedWithSimpleValue t inner
    | none =>
      let t1 := addDisposer t yieldedValue.fields.ecCancel
      if yieldedValue.fields.yieldable.isSome = true then
        invokeYieldable t1 yieldedValue
      else if yieldedValue.fields.hasThen = true then
        handleYieldedUnknownThenable t1 yieldedValue
      else
        proceedWithSimpleValue t1 yieldedValue

/-- `generatorStep(nextValue, iteratorMethod)`: one step of the Resumable
Body (the push/pop of the process-wide `TASK_INSTANCE_STACK` around the step
has no observable effect inside a single instance and is omitted), followed
by the `_expectsLinkedYield` usage warning. -/
def generatorStep (t : TaskInstanceState) (nextValue : JSVal)
    (iteratorMethod : YieldResume) : StepResult × TaskInstanceState :=
  let (stepResult, g) := t.generatorState.step nextValue iteratorMethod
  let t1 := emit { t with generatorState := g } (.genStep iteratorMethod nextValue)
  let t2 :=
    if t1.expectsLinkedYield = true then
      let t1a :=
        if stepResult.value.truthy = false ∨
           stepResult.value.fields.isLinkedPerform = false then
          emit t1 (.consoleWarn linkedWarningText)
        else t1
      { t1a with expectsLinkedYield := false }
    else t1
  (stepResult, t2)

/-- `handleResolvedContinueValue(iteratorMethod, resumeValue)`: step the
body; re-validate the pre-step ticket; a failed step finalizes as error;
otherwise classify the yielded value. -/
def handleResolvedContinueValue (t : TaskInstanceState)
    (iteratorMethod : YieldResume) (resumeValue : JSVal) : TaskInstanceState :=
  let beforeIndex := t.index
  let (stepResult, t1) := generatorStep t resumeValue iteratorMethod
  let (ok, t2) := advanceIndex t1 beforeIndex
  if ok = false then t2
  else if stepResult.errored = true then
    finalize t2 stepResult.value .COMPLETION_ERROR
  else
    handleYieldedValue t2 stepResult

/-- `handleResolvedReturnedValue(yieldResumeType, value)`: the body is done
and its returned value has resolved; CONTINUE/RETURN finalize as success,
THROW finalizes as error (YIELDABLE_CANCEL has no case in the switch). -/
def handleResolvedReturnedValue (t : TaskInstanceState)
    (yieldResumeType : YieldResume) (value : JSVal) : TaskInstanceState :=
  match yieldResumeType with
  | .YIELDABLE_CONTINUE => finalize t value .COMPLETION_SUCCESS
  | .YIELDABLE_RETURN => finalize t value .COMPLETION_SUCCESS
  | .YIELDABLE_THROW => finalize t value .COMPLETION_ERROR
  | .YIELDABLE_CANCEL => t

/-- `proceedSync(yieldResumeType, value)`: no-op if finished; drain
disposers; route to the returned-value or continue-value handler. -/
def proceedSync (t : TaskInstanceState) (yieldResumeType : YieldResume)
    (value : JSVal) : TaskInstanceState :=
  if t.state.isFinished = true then t
  else
    let t1 := dispose t none
    if t1.generatorState.done = true then
      handleResolvedReturnedValue t1 yieldResumeType value
    else
      handleResolvedContinueValue t1 yieldResumeType value

/-- `proceedChecked(index, yieldResumeType, value)`: the ticket-validated
resumption adapter.  (The source also passes `value` as a second argument to
`requestCancel`, which ignores it.) -/
def proceedChecked (t : TaskInstanceState) (index : Nat)
    (yieldResumeType : YieldResume) (value : JSVal) : TaskInstanceState :=
  if t.state.isFinished = true then t
  else
    let (ok, t1) := advanceIndex t index
    if ok = false then t1
    else if yieldResumeType = .YIELDABLE_CANCEL then
      let t2 := (requestCancel t1 { kind := .CANCEL_KIND_YIELDED }).2
      proceedWithCancelAsync t2
    else
      proceedAsync t1 yieldResumeType value

/-- `cancel(sourceCancelReason)`: request cancellation; if accepted, either
schedule the forced-RETURN resumption (already started) or finalize
immediately with the cancel outcome (not yet started). -/
def cancel (t : TaskInstanceState) (sourceCancelReason : Option JSVal) :
    TaskInstanceState :=
  let (ok, t1) := requestCancel t
    { kind := .CANCEL_KIND_EXPLICIT, reason := sourceCancelReason }
  if ok = false then t1
  else if t1.state.hasStarted = true then proceedWithCancelAsync t1
  else finalizeWithCancel t1

/-- `start()`: no-op if already started or cancel-requested; mark started,
take the first synchronous step, notify the Delegate. -/
def start (t : TaskInstanceState) : TaskInstanceState :=
  if t.state.hasStarted = true ∨ t.cancelRequest.isSome = true then t
  else
    let t1 := setState t { hasStarted := some true }
    let t2 := proceedSync t1 .YIELDABLE_CONTINUE .empty
    emit t2 .onStarted

/-- `onFinalize(callback)`: register; if already finished, run the callback
list synchronously. -/
def onFinalize (t : TaskInstanceState) (callback : Nat) : TaskInstanceState :=
  let t1 := { t with finalizeCallbacks := t.finalizeCallbacks ++ [callback] }
  if t1.state.isFinished = true then runFinalizeCallbacks t1 else t1

/-- `promise()`: lazily create the deferred result on first request; mark
async errors as handled; settle immediately if already finished. -/
def promise (t : TaskInstanceState) : TaskInstanceState :=
  if t.defer = false then
    maybeResolveDefer { t with defer := true, asyncErrorsHandled := true }
  else t

/-- `onYielded(parent, resumeIndex)` as it affects this (child) instance:
mark async errors handled and register the finalize callback that will
resume the parent through its ticketed path.  The callback's body (calls on
the parent instance) and the linking disposer returned to the parent unless
the perform type is UNLINKED (a closure over `this.cancel()`) act on other
instances and are modelled as the opaque callback id. -/
def onYielded (t : TaskInstanceState) (callback : Nat) : TaskInstanceState :=
  onFinalize { t with asyncErrorsHandled := true } callback

/-- Run one deferred `env.async` action: a scheduled `proceedSync` re-entry,
or the delayed unhandled-error check (which re-reads `asyncErrorsHandled`
before reporting, so that a consumer requesting the deferred result within
the same turn suppresses the report). -/
def runAsyncAction (t : TaskInstanceState) (a : AsyncAction) :
    TaskInstanceState :=
  match a with
  | .proceed k v => proceedSync t k v
  | .unhandledErrorCheck =>
      if t.asyncErrorsHandled = false then
        emit t (.reportUncaughtRejection t.state.error)
      else t

end TaskInstanceState

/-- The operations that can reach a task instance from outside between
cooperative turns: its public surface (`start`, `cancel`, `onFinalize`, the
deferred-result accessor, `onYielded` from a parent), ticket-presenting
resumptions from suspension sources (`proceedChecked`), and the Environment
scheduler running the next deferred action. -/
inductive Op where
  | start
  | cancel (reason : Option JSVal)
  | proceedChecked (ticket : Nat) (k : YieldResume) (v : JSVal)
  | onFinalize (cb : Nat)
  | promise
  | onYielded (cb : Nat)
  | runPendingAction
deriving DecidableEq, Repr

/-- Interpret one external operation. -/
def runOp (t : TaskInstanceState) (op : Op) : TaskInstanceState :=
  match op with
  | .start => t.start
  | .cancel r => t.cancel r
  | .proceedChecked ticket k v => t.proceedChecked ticket k v
  | .onFinalize cb => t.onFinalize cb
  | .promise => t.promise
  | .onYielded cb => t.onYielded cb
  | .runPendingAction =>
      match t.pending with
      | [] => t
      | a :: rest => TaskInstanceState.runAsyncAction { t with pending := rest } a

/-- Interpret a sequence of external operations. -/
def runOps (t : TaskInstanceState) (ops : List Op) : TaskInstanceState :=
  ops.foldl runOp t

/-- Well-formed external operation: a `proceedChecked` resumption presents a
ticket that was actually issued by the engine.  Tickets are captured from
`index` at suspension points, and every suspension point is created after
the first `advanceIndex` of the first step, so every issued ticket is at
least 2. -/
def Op.wf : Op → Prop
  | .proceedChecked ticket _ _ => 2 ≤ ticket
  | _ => True

instance : DecidablePred Op.wf := fun op => by
  unfold Op.wf
  cases op <;> infer_instance

/-! ## Observable-trace counting -/

/-- Terminal Delegate dispatches: `onSuccess`, `onError`, `onCancel`. -/
def Event.isTerminal : Event → Bool
  | .onSuccess => true
  | .onError _ => true
  | .onCancel _ => true
  | _ => false

/-- Steps taken on the Resumable Body. -/
def Event.isGenStep : Event → Bool
  | .genStep _ _ => true
  | _ => false

/-- Number of terminal outcome dispatches in a trace. -/
def terminalCount (es : List Event) : Nat :=
  (es.filter Event.isTerminal).length

/-- Number of body steps in a trace. -/
def stepCount (es : List Event) : Nat :=
  (es.filter Event.isGenStep).length

/-- Number of runs of finalize callback `c` in a trace. -/
def cbCount (c : Nat) (es : List Event) : Nat :=
  (es.filter (· = Event.ranFinalizeCallback c)).length

/-! ## Characterizations of the engine methods

Each `_eq` lemma rewrites a method into a single structure update of the
input instance, so that field projections and trace counts become
mechanical. -/

/-- Events appended by `maybeResolveDefer`, as a function of the deferred
flag and the shared state. -/
def deferEvents (defer : Bool) (s : SharedState) : List Event :=
  if defer = false ∨ s.isFinished = false then []
  else if s.completionState = some .COMPLETION_SUCCESS then
    [.deferResolved s.value]
  else [.deferRejected s.error]

/-- Actions queued by `maybeThrowUnhandledTaskErrorLater`. -/
def unhandledQueue (handled : Bool) (s : SharedState) : List AsyncAction :=
  if handled = false ∧ s.completionState = some .COMPLETION_ERROR ∧
     didCancelOpt s.error = false then [.unhandledErrorCheck]
  else []

/-- The terminal Delegate dispatch of `dispatchFinalizeEvents`. -/
def terminalEvts (s : SharedState) (cr : Option CancelRequest)
    (cs : Option CompletionState) : List Event :=
  match cs with
  | some .COMPLETION_SUCCESS => [.onSuccess]
  | some .COMPLETION_ERROR => [.onError s.error]
  | some .COMPLETION_CANCEL => [.onCancel (cr.bind CancelRequest.reason)]
  | none => []

/-- The shared state right after `finalizeShared` merges its patch. -/
def postFinalizeState (t : TaskInstanceState) (p : StatePatch) : SharedState :=
  applyPatch t.state { p with isFinished := some true }

/-- The optional console log of `finalizeWithCancel`. -/
def debugLogEvents (debug envDebug : Bool) : List Event :=
  if debug = true ∨ envDebug = true then [.consoleLog "TaskCancelation"] else []

/-- Events emitted by `invokeYieldable` given the captured ticket and the
handler's behaviour. -/
def yieldableEvents (ticket : Nat) (yr : Option YieldableResult) : List Event :=
  match yr with
  | some (.throws e) =>
      [.invokedYieldable ticket,
       .reportUncaughtRejection (some (JSVal.ofNat e))]
  | some (.returnsDisposer _) => [.invokedYieldable ticket]
  | some .returnsNonFunction => [.invokedYieldable ticket]
  | none => []

/-- Disposers captured by `invokeYieldable`. -/
def yieldableDisposers (yr : Option YieldableResult) : List Nat :=
  match yr with
  | some (.returnsDisposer d) => [d]
  | _ => []

/-- The usage warning of `generatorStep`. -/
def linkedWarnEvents (expects : Bool) (r : StepResult) : List Event :=
  if expects = true ∧ (r.value.truthy = false ∨
      r.value.fields.isLinkedPerform = false) then
    [.consoleWarn linkedWarningText]
  else []

/-- The shared state patch `finalize` builds for a natural outcome. -/
def naturalPatch (value : JSVal) (completionState : CompletionState) :
    StatePatch :=
  match completionState with
  | .COMPLETION_SUCCESS =>
      { completionState := some .COMPLETION_SUCCESS,
        isSuccessful := some true, value := some value }
  | .COMPLETION_ERROR =>
      { completionState := some .COMPLETION_ERROR,
        isError := some true, error := some value }
  | .COMPLETION_CANCEL =>
      { completionState := some .COMPLETION_CANCEL, error := some value }

/-- The shared state patch `finalizeWithCancel` builds. -/
def cancelPatch : StatePatch :=
  { isCanceled := some true, completionState := some .COMPLETION_CANCEL,
    error := some (JSVal.cancelError "TaskCancelation"),
    cancelReason := some "TaskCancelation" }

/-- The reachable-state invariant of an instance driven by well-formed
external operations: before `start` (and before any finalization) the index
is still 1 and nothing is scheduled; a finished instance was started or
carries a cancel request; the trace holds exactly one terminal dispatch iff
the instance is finished; and a finished instance has drained its finalize
callbacks. -/
def Inv (t : TaskInstanceState) : Prop :=
  (t.state.hasStarted = false ∧ t.state.isFinished = false →
     t.index = 1 ∧ t.pending = []) ∧
  (t.state.isFinished = true →
     t.state.hasStarted = true ∨ t.cancelRequest.isSome = true) ∧
  (t.state.isFinished = true → terminalCount t.events = 1) ∧
  (t.state.isFinished = false → terminalCount t.events = 0) ∧
  (t.state.isFinished = true → t.finalizeCallbacks = [])

/-- An element of an arbitrary interleaving: a resumption attempt presenting
one fixed captured ticket, or any other external operation. -/
inductive SeqItem where
  | attempt (k : YieldResume) (v : JSVal)
  | other (op : Op)
deriving DecidableEq, Repr

/-- Run one interleaving element (attempts present the fixed `ticket`). -/
def runItem (ticket : Nat) (t : TaskInstanceState) : SeqItem → TaskInstanceState
  | .attempt k v => t.proceedChecked ticket k v
  | .other op => runOp t op

/-- How many of the attempts presenting the captured `ticket` were honored,
i.e. changed the instance at all. -/
def honoredCount (ticket : Nat) : TaskInstanceState → List SeqItem → Nat
  | _, [] => 0
  | t, item :: rest =>
      (match item with
       | .attempt k v => if t.proceedChecked ticket k v ≠ t then 1 else 0
       | .other _ => 0) + honoredCount ticket (runItem ticket t item) rest

/-- A fresh instance over the trivial body, for concrete witnesses. -/
def sample : TaskInstanceState :=
  initialTIS {} .PERFORM_TYPE_DEFAULT false false

/-- A fresh instance that already carries an explicit cancel request. -/
def sampleCancelled : TaskInstanceState :=
  { sample with cancelRequest := some { kind := .CANCEL_KIND_EXPLICIT } }

/-! ## Proof layer -/

theorem terminalCount_append (a b : List Event) :
    terminalCount (a ++ b) = terminalCount a + terminalCount b := by
  simp [terminalCount, List.filter_append]

theorem stepCount_append (a b : List Event) :
    stepCount (a ++ b) = stepCount a + stepCount b := by
  simp [stepCount, List.filter_append]

theorem cbCount_append (c : Nat) (a b : List Event) :
    cbCount c (a ++ b) = cbCount c a + cbCount c b := by
  simp [cbCount, List.filter_append]

theorem terminalCount_map_ranFinalizeCallback (l : List Nat) :
    terminalCount (l.map Event.ranFinalizeCallback) = 0 := by
  induction l with
  | nil => rfl
  | cons x xs ih => simp [terminalCount, Event.isTerminal, ih]

theorem terminalCount_map_ranDisposer (l : List Nat) :
    terminalCount (l.map Event.ranDisposer) = 0 := by
  induction l with
  | nil => rfl
  | cons x xs ih => simp [terminalCount, Event.isTerminal, ih]

theorem stepCount_map_ranFinalizeCallback (l : List Nat) :
    stepCount (l.map Event.ranFinalizeCallback) = 0 := by
  induction l with
  | nil => rfl
  | cons x xs ih => simp [stepCount, Event.isGenStep, ih]

theorem stepCount_map_ranDisposer (l : List Nat) :
    stepCount (l.map Event.ranDisposer) = 0 := by
  induction l with
  | nil => rfl
  | cons x xs ih => simp [stepCount, Event.isGenStep, ih]

theorem cbCount_map_ranFinalizeCallback (c : Nat) (l : List Nat) :
    cbCount c (l.map Event.ranFinalizeCallback) = (l.filter (· = c)).length := by
  induction l with
  | nil => rfl
  | cons x xs ih =>
      by_cases hx : x = c <;>
        simp [cbCount, List.filter_cons, hx] at ih ⊢ <;> omega

namespace TaskInstanceState

theorem setState_eq (t : TaskInstanceState) (p : StatePatch) :
    setState t p = { t with state := applyPatch t.state p,
                            events := t.events ++ [.setState p] } := rfl

theorem maybeResolveDefer_eq (t : TaskInstanceState) :
    maybeResolveDefer t =
      { t with events := t.events ++ deferEvents t.defer t.state } := by
  unfold maybeResolveDefer deferEvents emit
  split
  · cases t; simp_all
  · split <;> simp_all

theorem maybeThrowUnhandledTaskErrorLater_eq (t : TaskInstanceState) :
    maybeThrowUnhandledTaskErrorLater t =
      { t with pending := t.pending ++
                 unhandledQueue t.asyncErrorsHandled t.state } := by
  unfold maybeThrowUnhandledTaskErrorLater unhandledQueue
  split
  · simp_all
  · cases t; simp_all

theorem dispose_eq (t : TaskInstanceState) (r : Option JSVal) :
    dispose t r =
      { t with
        disposers := [],
        events := t.events ++ t.disposers.map Event.ranDisposer } := by
  unfold dispose
  split
  · rename_i h
    rw [List.isEmpty_iff] at h
    cases t; simp_all
  · rfl

theorem runFinalizeCallbacks_eq (t : TaskInstanceState) :
    runFinalizeCallbacks t =
      { t with
        finalizeCallbacks := [],
        events := t.events ++ t.finalizeCallbacks.map Event.ranFinalizeCallback
          ++ deferEvents t.defer t.state,
        pending := t.pending ++
          unhandledQueue t.asyncErrorsHandled t.state } := by
  unfold runFinalizeCallbacks
  simp only [maybeResolveDefer_eq, maybeThrowUnhandledTaskErrorLater_eq]

theorem dispatchFinalizeEvents_eq (t : TaskInstanceState)
    (cs : Option CompletionState) :
    dispatchFinalizeEvents t cs =
      { t with
        events := t.events ++ terminalEvts t.state t.cancelRequest cs } := by
  unfold dispatchFinalizeEvents terminalEvts emit
  match cs with
  | none => cases t; simp
  | some .COMPLETION_SUCCESS => rfl
  | some .COMPLETION_ERROR => rfl
  | some .COMPLETION_CANCEL => rfl

theorem finalizeShared_eq (t : TaskInstanceState) (p : StatePatch) :
    finalizeShared t p =
      { t with
        index := t.index + 1,
        state := postFinalizeState t p,
        finalizeCallbacks := [],
        events := t.events ++ [.setState { p with isFinished := some true }]
          ++ t.finalizeCallbacks.map Event.ranFinalizeCallback
          ++ deferEvents t.defer (postFinalizeState t p)
          ++ terminalEvts (postFinalizeState t p) t.cancelRequest
            p.completionState,
        pending := t.pending ++ unhandledQueue t.asyncErrorsHandled
          (postFinalizeState t p) } := by
  unfold finalizeShared postFinalizeState
  simp only [setState_eq, runFinalizeCallbacks_eq, dispatchFinalizeEvents_eq]

theorem finalizeWithCancel_eq (t : TaskInstanceState) :
    finalizeWithCancel t =
      { t with
        index := t.index + 1,
        state := postFinalizeState t cancelPatch,
        finalizeCallbacks := [],
        events := t.events ++ debugLogEvents t.debug t.envDebug
          ++ [.setState { cancelPatch with isFinished := some true }]
          ++ t.finalizeCallbacks.map Event.ranFinalizeCallback
          ++ deferEvents t.defer (postFinalizeState t cancelPatch)
          ++ terminalEvts (postFinalizeState t cancelPatch)
            t.cancelRequest cancelPatch.completionState,
        pending := t.pending ++ unhandledQueue t.asyncErrorsHandled
          (postFinalizeState t cancelPatch) } := by
  unfold finalizeWithCancel debugLogEvents emit
  split
  · simp only [finalizeShared_eq]
    simp [cancelPatch, postFinalizeState, List.append_assoc]
  · simp only [finalizeShared_eq]
    simp [cancelPatch, postFinalizeState, List.append_assoc]

theorem finalize_some (t : TaskInstanceState) (v : JSVal)
    (cs : CompletionState) (h : t.cancelRequest.isSome = true) :
    finalize t v cs = finalizeWithCancel t := by
  unfold finalize
  simp [h]

theorem finalize_none (t : TaskInstanceState) (v : JSVal)
    (cs : CompletionState) (h : t.cancelRequest.isSome = false) :
    finalize t v cs = finalizeShared t (naturalPatch v cs) := by
  unfold finalize naturalPatch
  cases cs <;> simp [h]

theorem proceedAsync_eq (t : TaskInstanceState) (k : YieldResume) (v : JSVal) :
    proceedAsync t k v =
      { t with
        index := t.index + 1,
        pending := t.pending ++ [.proceed k v] } := by
  unfold proceedAsync advanceIndex
  simp

theorem invokeYieldable_eq (t : TaskInstanceState) (v : JSVal) :
    invokeYieldable t v =
      { t with
        disposers := t.disposers ++ yieldableDisposers v.fields.yieldable,
        events := t.events ++ yieldableEvents t.index v.fields.yieldable } := by
  unfold invokeYieldable yieldableEvents yieldableDisposers emit addDisposer
  cases hy : v.fields.yieldable with
  | none => cases t; simp
  | some r => cases r <;> simp [List.append_assoc]

theorem generatorStep_eq (t : TaskInstanceState) (nv : JSVal)
    (im : YieldResume) :
    generatorStep t nv im =
      ((t.generatorState.step nv im).1,
       { t with
         generatorState := (t.generatorState.step nv im).2,
         events := t.events ++ [.genStep im nv]
           ++ linkedWarnEvents t.expectsLinkedYield
             (t.generatorState.step nv im).1,
         expectsLinkedYield := false }) := by
  unfold generatorStep linkedWarnEvents emit
  rcases hs : t.generatorState.step nv im with ⟨r, g⟩
  by_cases he : t.expectsLinkedYield = true
  · by_cases hw : r.value.truthy = false ∨ r.value.fields.isLinkedPerform = false <;>
      simp [he, hw, List.append_assoc]
  · simp at he
    simp [he, List.append_assoc]

end TaskInstanceState

/-! ## Counting the auxiliary event lists -/

theorem terminalCount_nil : terminalCount [] = 0 := rfl

theorem stepCount_nil : stepCount [] = 0 := rfl

theorem cbCount_nil (c : Nat) : cbCount c [] = 0 := rfl

theorem terminalCount_cons (e : Event) (es : List Event) :
    terminalCount (e :: es) =
      (if e.isTerminal then 1 else 0) + terminalCount es := by
  by_cases h : e.isTerminal <;>
    simp [terminalCount, List.filter_cons, h, Nat.add_comm]

theorem stepCount_cons (e : Event) (es : List Event) :
    stepCount (e :: es) = (if e.isGenStep then 1 else 0) + stepCount es := by
  by_cases h : e.isGenStep <;>
    simp [stepCount, List.filter_cons, h, Nat.add_comm]

theorem cbCount_cons (c : Nat) (e : Event) (es : List Event) :
    cbCount c (e :: es) =
      (if e = Event.ranFinalizeCallback c then 1 else 0) + cbCount c es := by
  by_cases h : e = Event.ranFinalizeCallback c <;>
    simp [cbCount, List.filter_cons, h, Nat.add_comm]

theorem terminalCount_deferEvents (d : Bool) (s : SharedState) :
    terminalCount (deferEvents d s) = 0 := by
  unfold deferEvents
  split
  · rfl
  · split <;> rfl

theorem stepCount_deferEvents (d : Bool) (s : SharedState) :
    stepCount (deferEvents d s) = 0 := by
  unfold deferEvents
  split
  · rfl
  · split <;> rfl

theorem cbCount_deferEvents (c : Nat) (d : Bool) (s : SharedState) :
    cbCount c (deferEvents d s) = 0 := by
  unfold deferEvents
  split
  · rfl
  · split <;> simp [cbCount, List.filter_cons]

theorem terminalCount_terminalEvts (s : SharedState) (cr : Option CancelRequest)
    (cs : Option CompletionState) :
    terminalCount (terminalEvts s cr cs) = if cs.isSome then 1 else 0 := by
  unfold terminalEvts
  rcases cs with _ | c
  · rfl
  · cases c <;> rfl

theorem stepCount_terminalEvts (s : SharedState) (cr : Option CancelRequest)
    (cs : Option CompletionState) :
    stepCount (terminalEvts s cr cs) = 0 := by
  unfold terminalEvts
  rcases cs with _ | c
  · rfl
  · cases c <;> rfl

theorem cbCount_terminalEvts (c0 : Nat) (s : SharedState)
    (cr : Option CancelRequest) (cs : Option CompletionState) :
    cbCount c0 (terminalEvts s cr cs) = 0 := by
  unfold terminalEvts
  rcases cs with _ | c
  · rfl
  · cases c <;> simp [cbCount, List.filter_cons]

theorem terminalCount_debugLogEvents (d e : Bool) :
    terminalCount (debugLogEvents d e) = 0 := by
  unfold debugLogEvents
  split <;> rfl

theorem stepCount_debugLogEvents (d e : Bool) :
    stepCount (debugLogEvents d e) = 0 := by
  unfold debugLogEvents
  split <;> rfl

theorem cbCount_debugLogEvents (c : Nat) (d e : Bool) :
    cbCount c (debugLogEvents d e) = 0 := by
  unfold debugLogEvents
  split <;> simp [cbCount, List.filter_cons]

theorem terminalCount_yieldableEvents (i : Nat) (yr : Option YieldableResult) :
    terminalCount (yieldableEvents i yr) = 0 := by
  unfold yieldableEvents
  rcases yr with _ | r
  · rfl
  · cases r <;> rfl

theorem stepCount_yieldableEvents (i : Nat) (yr : Option YieldableResult) :
    stepCount (yieldableEvents i yr) = 0 := by
  unfold yieldableEvents
  rcases yr with _ | r
  · rfl
  · cases r <;> rfl

theorem cbCount_yieldableEvents (c : Nat) (i : Nat)
    (yr : Option YieldableResult) :
    cbCount c (yieldableEvents i yr) = 0 := by
  unfold yieldableEvents
  rcases yr with _ | r
  · rfl
  · cases r <;> simp [cbCount, List.filter_cons]

theorem terminalCount_linkedWarnEvents (b : Bool) (r : StepResult) :
    terminalCount (linkedWarnEvents b r) = 0 := by
  unfold linkedWarnEvents
  split <;> rfl

theorem stepCount_linkedWarnEvents (b : Bool) (r : StepResult) :
    stepCount (linkedWarnEvents b r) = 0 := by
  unfold linkedWarnEvents
  split <;> rfl

theorem cbCount_linkedWarnEvents (c : Nat) (b : Bool) (r : StepResult) :
    cbCount c (linkedWarnEvents b r) = 0 := by
  unfold linkedWarnEvents
  split <;> simp [cbCount, List.filter_cons]

theorem postFinalizeState_isFinished (t : TaskInstanceState) (p : StatePatch) :
    (postFinalizeState t p).isFinished = true := by
  simp [postFinalizeState, applyPatch]

theorem postFinalizeState_hasStarted (t : TaskInstanceState) (p : StatePatch) :
    (postFinalizeState t p).hasStarted = p.hasStarted.getD t.state.hasStarted := by
  simp [postFinalizeState, applyPatch]

theorem postFinalizeState_completionState (t : TaskInstanceState)
    (p : StatePatch) :
    (postFinalizeState t p).completionState =
      p.completionState.or t.state.completionState := by
  simp [postFinalizeState, applyPatch]

namespace TaskInstanceState

theorem addDisposer_eq (t : TaskInstanceState) (o : Option Nat) :
    addDisposer t o = { t with disposers := t.disposers ++ o.toList } := by
  cases o with
  | none => unfold addDisposer; cases t; simp
  | some d => rfl

theorem advanceIndex_snd_index (t : TaskInstanceState) (i : Nat) :
    (t.advanceIndex i).2.index = if t.index = i then t.index + 1 else t.index := by
  unfold advanceIndex
  split <;> rfl

theorem requestCancel_snd_eq (t : TaskInstanceState) (req : CancelRequest) :
    (t.requestCancel req).2 =
      if t.cancelRequest.isSome = true ∨ t.state.isFinished = true then t
      else { t with cancelRequest := some req } := by
  unfold requestCancel
  split <;> rfl

/-! ### The index never decreases -/

theorem index_finalizeShared (t : TaskInstanceState) (p : StatePatch) :
    (t.finalizeShared p).index = t.index + 1 := by
  rw [finalizeShared_eq]

theorem index_finalizeWithCancel (t : TaskInstanceState) :
    t.finalizeWithCancel.index = t.index + 1 := by
  rw [finalizeWithCancel_eq]

theorem index_finalize (t : TaskInstanceState) (v : JSVal)
    (cs : CompletionState) : (t.finalize v cs).index = t.index + 1 := by
  by_cases h : t.cancelRequest.isSome = true
  · rw [finalize_some _ _ _ h, index_finalizeWithCancel]
  · have h' : t.cancelRequest.isSome = false := by simpa using h
    rw [finalize_none _ _ _ h', index_finalizeShared]

theorem index_proceedAsync (t : TaskInstanceState) (k : YieldResume)
    (v : JSVal) : (t.proceedAsync k v).index = t.index + 1 := by
  rw [proceedAsync_eq]

theorem index_dispose (t : TaskInstanceState) (r : Option JSVal) :
    (t.dispose r).index = t.index := by
  rw [dispose_eq]

theorem index_le_handleYieldedValue (t : TaskInstanceState) (sr : StepResult) :
    t.index ≤ (t.handleYieldedValue sr).index := by
  unfold handleYieldedValue
  by_cases htr : sr.value.truthy = false
  · simp [htr, proceedWithSimpleValue, index_proceedAsync]
  · rw [if_neg (by simp [htr])]
    rcases hri : sr.value.rawInner? with _ | inner
    · simp only []
      by_cases hy : sr.value.fields.yieldable.isSome = true
      · simp [hy, invokeYieldable_eq, addDisposer_eq]
      · by_cases ht : sr.value.fields.hasThen = true <;>
          simp [hy, ht, handleYieldedUnknownThenable, emit, addDisposer_eq,
            proceedWithSimpleValue, index_proceedAsync, Nat.le_succ]
    · simp [proceedWithSimpleValue, index_proceedAsync, Nat.le_succ]

theorem index_le_handleResolvedContinueValue (t : TaskInstanceState)
    (im : YieldResume) (rv : JSVal) :
    t.index ≤ (t.handleResolvedContinueValue im rv).index := by
  unfold handleResolvedContinueValue
  rw [generatorStep_eq]
  simp [advanceIndex]
  split
  · rw [index_finalize]
    simp
    omega
  · refine le_trans ?_ (index_le_handleYieldedValue _ _)
    simp

theorem index_le_handleResolvedReturnedValue (t : TaskInstanceState)
    (k : YieldResume) (v : JSVal) :
    t.index ≤ (t.handleResolvedReturnedValue k v).index := by
  unfold handleResolvedReturnedValue
  cases k <;> simp [index_finalize, Nat.le_succ]

theorem index_le_proceedSync (t : TaskInstanceState) (k : YieldResume)
    (v : JSVal) : t.index ≤ (t.proceedSync k v).index := by
  unfold proceedSync
  split
  · exact le_refl _
  · simp only [dispose_eq]
    split
    · refine le_trans ?_ (index_le_handleResolvedReturnedValue _ _ _)
      simp
    · refine le_trans ?_ (index_le_handleResolvedContinueValue _ _ _)
      simp

theorem index_le_proceedChecked (t : TaskInstanceState) (i : Nat)
    (k : YieldResume) (v : JSVal) :
    t.index ≤ (t.proceedChecked i k v).index := by
  unfold proceedChecked
  split
  · exact le_refl _
  · rcases ha : t.advanceIndex i with ⟨ok, t1⟩
    have hi : t.index ≤ t1.index := by
      have := advanceIndex_snd_index t i
      rw [ha] at this
      simp at this
      rw [this]
      split <;> omega
    simp only []
    split
    · exact hi
    · split
      · refine le_trans hi (le_trans ?_ (le_of_eq
          (index_proceedAsync _ _ _).symm))
        rw [requestCancel_snd_eq]
        split <;> simp [Nat.le_succ]
      · exact le_trans hi (by rw [index_proceedAsync]; omega)

theorem index_le_cancel (t : TaskInstanceState) (r : Option JSVal) :
    t.index ≤ (t.cancel r).index := by
  unfold cancel
  rcases hr : t.requestCancel ⟨.CANCEL_KIND_EXPLICIT, r⟩ with ⟨ok, t1⟩
  have hi : t1.index = t.index := by
    have h := requestCancel_snd_eq t ⟨.CANCEL_KIND_EXPLICIT, r⟩
    rw [hr] at h
    simp at h
    rw [h]
    split <;> rfl
  simp only []
  split
  · omega
  · split
    · rw [TaskInstanceState.proceedWithCancelAsync, index_proceedAsync]
      omega
    · rw [index_finalizeWithCancel]
      omega

theorem index_le_start (t : TaskInstanceState) :
    t.index ≤ t.start.index := by
  unfold start
  split
  · exact le_refl _
  · rw [setState_eq]
    refine le_trans ?_ (index_le_proceedSync _ _ _)
    rfl

theorem index_onFinalize (t : TaskInstanceState) (cb : Nat) :
    (t.onFinalize cb).index = t.index := by
  by_cases h : t.state.isFinished = true <;>
    simp [onFinalize, h, runFinalizeCallbacks_eq]

theorem index_promise (t : TaskInstanceState) :
    t.promise.index = t.index := by
  by_cases h : t.defer = false <;>
    simp [promise, h, maybeResolveDefer_eq]

theorem index_onYielded (t : TaskInstanceState) (cb : Nat) :
    (t.onYielded cb).index = t.index := by
  unfold onYielded
  rw [index_onFinalize]

theorem index_le_runAsyncAction (t : TaskInstanceState) (a : AsyncAction) :
    t.index ≤ (t.runAsyncAction a).index := by
  cases a with
  | proceed k v => exact index_le_proceedSync t k v
  | unhandledErrorCheck =>
      simp only [runAsyncAction]
      split <;> simp [emit]

end TaskInstanceState

theorem index_le_runOp (t : TaskInstanceState) (op : Op) :
    t.index ≤ (runOp t op).index := by
  cases op with
  | start => exact TaskInstanceState.index_le_start t
  | cancel r => exact TaskInstanceState.index_le_cancel t r
  | proceedChecked i k v =>
      exact TaskInstanceState.index_le_proceedChecked t i k v
  | onFinalize cb => exact le_of_eq (TaskInstanceState.index_onFinalize t cb).symm
  | promise => exact le_of_eq (TaskInstanceState.index_promise t).symm
  | onYielded cb => exact le_of_eq (TaskInstanceState.index_onYielded t cb).symm
  | runPendingAction =>
      show t.index ≤ (match t.pending with
        | [] => t
        | a :: rest =>
            TaskInstanceState.runAsyncAction { t with pending := rest } a).index
      cases t.pending with
      | nil => exact le_refl _
      | cons a rest =>
          exact TaskInstanceState.index_le_runAsyncAction
            { t with pending := rest } a

theorem index_le_runOps (t : TaskInstanceState) (ops : List Op) :
    t.index ≤ (runOps t ops).index := by
  induction ops generalizing t with
  | nil => exact le_refl _
  | cons op rest ih =>
      exact le_trans (index_le_runOp t op) (ih (runOp t op))

/-! ## Disposer capture shape of the Yield Classifier -/

theorem handleYieldedValue_disposers_obj (t : TaskInstanceState)
    (sr : StepResult) (f : JSFields) (p : Nat) (hv : sr.value = .obj f p) :
    (t.handleYieldedValue sr).disposers =
      t.disposers ++ f.ecCancel.toList ++ yieldableDisposers f.yieldable := by
  unfold TaskInstanceState.handleYieldedValue
  simp only [hv]
  by_cases hy : f.yieldable.isSome = true
  · simp [JSVal.truthy, JSVal.rawInner?, JSVal.fields, hy,
      TaskInstanceState.invokeYieldable_eq, TaskInstanceState.addDisposer]
    rcases f.ecCancel with _ | d <;> simp [List.append_assoc]
  · have hy' : f.yieldable = none := by
      rcases h : f.yieldable with _ | r
      · rfl
      · rw [h] at hy; simp at hy
    by_cases ht : f.hasThen = true <;>
      · simp [JSVal.truthy, JSVal.rawInner?, JSVal.fields, hy, hy', ht,
          TaskInstanceState.handleYieldedUnknownThenable,
          TaskInstanceState.proceedWithSimpleValue,
          TaskInstanceState.proceedAsync_eq, TaskInstanceState.emit,
          TaskInstanceState.addDisposer, yieldableDisposers]
        rcases f.ecCancel with _ | d <;> simp

/-! ## Claim theorems -/

/-- C3: Whenever `finalize(value, outcome)` is called while a cancel request
is pending, the instance finalizes with the cancel outcome regardless of the
success or error outcome the body produced; only when no cancel request
exists does `finalize` record `success(value)` or `error(value)`. -/
theorem finalize_cancel_preempts (t : TaskInstanceState) (v : JSVal)
    (cs : CompletionState) :
    (t.cancelRequest.isSome = true →
       t.finalize v cs = t.finalizeWithCancel ∧
       (t.finalize v cs).state.completionState = some .COMPLETION_CANCEL ∧
       (t.finalize v cs).state.isCanceled = true ∧
       (t.finalize v cs).state.isFinished = true) ∧
    (t.cancelRequest = none →
       ((t.finalize v .COMPLETION_SUCCESS).state.completionState =
          some .COMPLETION_SUCCESS ∧
        (t.finalize v .COMPLETION_SUCCESS).state.isSuccessful = true ∧
        (t.finalize v .COMPLETION_SUCCESS).state.value = some v) ∧
       ((t.finalize v .COMPLETION_ERROR).state.completionState =
          some .COMPLETION_ERROR ∧
        (t.finalize v .COMPLETION_ERROR).state.isError = true ∧
        (t.finalize v .COMPLETION_ERROR).state.error = some v)) := by
  constructor
  · intro h
    rw [TaskInstanceState.finalize_some t v cs h,
        TaskInstanceState.finalizeWithCancel_eq]
    refine ⟨rfl, ?_, ?_, ?_⟩ <;>
      simp [postFinalizeState, applyPatch, cancelPatch, Option.or]
  · intro h
    have h' : t.cancelRequest.isSome = false := by simp [h]
    refine ⟨?_, ?_⟩ <;>
      · rw [TaskInstanceState.finalize_none _ _ _ h',
            TaskInstanceState.finalizeShared_eq]
        simp [naturalPatch, postFinalizeState, applyPatch, Option.or]

/-- Witness for `finalize_cancel_preempts` at concrete instances: with a
pending cancel request the outcome is canceled; without one a success is
recorded. -/
theorem finalize_cancel_preempts_witness :
    (TaskInstanceState.finalize sampleCancelled .empty
        .COMPLETION_SUCCESS).state.isCanceled = true ∧
    (TaskInstanceState.finalize sample .empty
        .COMPLETION_SUCCESS).state.isSuccessful = true :=
  ⟨((finalize_cancel_preempts sampleCancelled .empty
      .COMPLETION_SUCCESS).1 rfl).2.2.1,
   ((finalize_cancel_preempts sample .empty
      .COMPLETION_SUCCESS).2 rfl).1.2.1⟩

/-- C5: If `cancel(reason)` is called on an instance that has not started
and whose cancel request is accepted, the instance finalizes immediately
with the cancel outcome, the Resumable Body is never stepped, and nothing is
scheduled that could step it later. -/
theorem cancel_before_start_no_step (t : TaskInstanceState) (r : Option JSVal)
    (h1 : t.state.hasStarted = false) (h2 : t.cancelRequest = none)
    (h3 : t.state.isFinished = false) :
    (t.cancel r).state.isFinished = true ∧
    (t.cancel r).state.completionState = some .COMPLETION_CANCEL ∧
    (t.cancel r).state.isCanceled = true ∧
    (t.cancel r).generatorState = t.generatorState ∧
    stepCount (t.cancel r).events = stepCount t.events ∧
    (t.cancel r).pending = t.pending := by
  have hc : t.cancel r = TaskInstanceState.finalizeWithCancel
      { t with cancelRequest := some ⟨.CANCEL_KIND_EXPLICIT, r⟩ } := by
    unfold TaskInstanceState.cancel TaskInstanceState.requestCancel
    simp [h1, h2, h3]
  rw [hc, TaskInstanceState.finalizeWithCancel_eq]
  refine ⟨?_, ?_, ?_, ?_, ?_, ?_⟩
  · simp [postFinalizeState_isFinished]
  · simp [postFinalizeState, applyPatch, cancelPatch, Option.or]
  · simp [postFinalizeState, applyPatch, cancelPatch]
  · rfl
  · simp [stepCount_append, stepCount_cons, Event.isGenStep,
      stepCount_debugLogEvents, stepCount_deferEvents, stepCount_terminalEvts,
      stepCount_map_ranFinalizeCallback]
  · simp [unhandledQueue, postFinalizeState, applyPatch, cancelPatch, Option.or]

/-- Witness for `cancel_before_start_no_step` on a fresh instance. -/
theorem cancel_before_start_no_step_witness :
    (TaskInstanceState.cancel sample none).state.isCanceled = true ∧
    stepCount (TaskInstanceState.cancel sample none).events =
      stepCount sample.events :=
  ⟨(cancel_before_start_no_step sample none rfl rfl rfl).2.2.1,
   (cancel_before_start_no_step sample none rfl rfl rfl).2.2.2.2.1⟩

/-- C6: A value wrapped in the explicit `RawValue` wrapper is unwrapped and
resumed CONTINUE immediately: the result is exactly `proceedAsync` on the
unwrapped value, no custom-suspension handler is invoked and no `then`
subscription happens (no event is emitted at all), and no disposer is
captured — even when the wrapper structurally exposes those interfaces
(arbitrary `f`). -/
theorem raw_value_escape_hatch (t : TaskInstanceState) (f : JSFields)
    (inner : JSVal) (done errored : Bool) :
    t.handleYieldedValue ⟨done, .raw f inner, errored⟩ =
      t.proceedAsync .YIELDABLE_CONTINUE inner ∧
    (t.handleYieldedValue ⟨done, .raw f inner, errored⟩).events = t.events ∧
    (t.handleYieldedValue ⟨done, .raw f inner, errored⟩).disposers =
      t.disposers := by
  refine ⟨?_, ?_, ?_⟩ <;>
    simp [TaskInstanceState.handleYieldedValue, JSVal.truthy, JSVal.rawInner?,
      TaskInstanceState.proceedWithSimpleValue, TaskInstanceState.proceedAsync_eq]

/-- C7 counterexample: a raw-wrapped value carrying an attached
`__ec_cancel__` disposer function (disposer `7`) does *not* get that
disposer captured — classification returns before `addDisposer` for
`RawValue` (and for falsy values), so the claim "captured regardless of
which of the five classification rules applies, including ... a raw-wrapped
value" fails here. -/
theorem disposer_field_raw_not_captured :
    (sample.handleYieldedValue
      { value := .raw { ecCancel := some 7 } .sentinel }).disposers = [] := rfl

/-- C7 amended: a yielded value's attached disposer field is captured
exactly when the value is truthy and not raw-wrapped (classification rules
3–5); for an empty/absent value and for a raw-wrapped value the field is
ignored and the disposer list is unchanged. -/
theorem disposer_capture_amended (t : TaskInstanceState) (sr : StepResult) :
    (∀ f p d, sr.value = .obj f p → f.ecCancel = some d →
       ∃ rest, (t.handleYieldedValue sr).disposers =
         t.disposers ++ d :: rest) ∧
    (∀ f inner, sr.value = .raw f inner →
       (t.handleYieldedValue sr).disposers = t.disposers) ∧
    (sr.value = .empty → (t.handleYieldedValue sr).disposers = t.disposers) := by
  refine ⟨?_, ?_, ?_⟩
  · intro f p d hv hec
    refine ⟨yieldableDisposers f.yieldable, ?_⟩
    rw [handleYieldedValue_disposers_obj t sr f p hv, hec]
    simp [Option.toList, List.append_assoc]
  · intro f inner hv
    unfold TaskInstanceState.handleYieldedValue
    simp [hv, JSVal.truthy, JSVal.rawInner?,
      TaskInstanceState.proceedWithSimpleValue, TaskInstanceState.proceedAsync_eq]
  · intro hv
    unfold TaskInstanceState.handleYieldedValue
    simp [hv, JSVal.truthy,
      TaskInstanceState.proceedWithSimpleValue, TaskInstanceState.proceedAsync_eq]

/-- Witness for `disposer_capture_amended`: on a plain object carrying
disposer `7`, the disposer is captured. -/
theorem disposer_capture_amended_witness :
    ∃ rest, (sample.handleYieldedValue
      { value := .obj { ecCancel := some 7 } 3 }).disposers =
        sample.disposers ++ 7 :: rest :=
  (disposer_capture_amended sample
    { value := .obj { ecCancel := some 7 } 3 }).1 { ecCancel := some 7 } 3 7
    rfl rfl

/-- C9: If the custom-suspension handler invoked for a rule-3 yielded value
throws synchronously, the exception goes to the Environment's
uncaught-error reporter and is never propagated into the body or turned
into the instance's outcome: the whole instance is unchanged except for the
`__ec_cancel__` disposer captured before the handler ran and the two trace
events (handler invocation, uncaught report). -/
theorem yieldable_handler_failure_contained (t : TaskInstanceState)
    (ec : Option Nat) (hasThen linked nameTC : Bool) (e p : Nat)
    (done errored : Bool) :
    (t.handleYieldedValue
        ⟨done, .obj ⟨ec, some (.throws e), hasThen, linked, nameTC⟩ p,
         errored⟩).state = t.state ∧
    (t.handleYieldedValue
        ⟨done, .obj ⟨ec, some (.throws e), hasThen, linked, nameTC⟩ p,
         errored⟩).index = t.index ∧
    (t.handleYieldedValue
        ⟨done, .obj ⟨ec, some (.throws e), hasThen, linked, nameTC⟩ p,
         errored⟩).generatorState = t.generatorState ∧
    (t.handleYieldedValue
        ⟨done, .obj ⟨ec, some (.throws e), hasThen, linked, nameTC⟩ p,
         errored⟩).cancelRequest = t.cancelRequest ∧
    (t.handleYieldedValue
        ⟨done, .obj ⟨ec, some (.throws e), hasThen, linked, nameTC⟩ p,
         errored⟩).pending = t.pending ∧
    (t.handleYieldedValue
        ⟨done, .obj ⟨ec, some (.throws e), hasThen, linked, nameTC⟩ p,
         errored⟩).finalizeCallbacks = t.finalizeCallbacks ∧
    (t.handleYieldedValue
        ⟨done, .obj ⟨ec, some (.throws e), hasThen, linked, nameTC⟩ p,
         errored⟩).disposers = t.disposers ++ ec.toList ∧
    (t.handleYieldedValue
        ⟨done, .obj ⟨ec, some (.throws e), hasThen, linked, nameTC⟩ p,
         errored⟩).events = t.events ++ [.invokedYieldable t.index,
           .reportUncaughtRejection (some (JSVal.ofNat e))] := by
  refine ⟨?_, ?_, ?_, ?_, ?_, ?_, ?_, ?_⟩ <;>
    · unfold TaskInstanceState.handleYieldedValue
      rcases ec with _ | d <;>
        simp [JSVal.truthy, JSVal.rawInner?, JSVal.fields,
          TaskInstanceState.invokeYieldable_eq, TaskInstanceState.addDisposer,
          yieldableEvents, yieldableDisposers, Option.toList]

/-! ## Ticketed resumption: stale tickets and the honored-once property -/

theorem proceedChecked_stale (t : TaskInstanceState) (i : Nat)
    (k : YieldResume) (v : JSVal)
    (h : t.state.isFinished = true ∨ i ≠ t.index) :
    t.proceedChecked i k v = t := by
  unfold TaskInstanceState.proceedChecked
  rcases h with h | h
  · rw [if_pos h]
  · split
    · rfl
    · simp [TaskInstanceState.advanceIndex, Ne.symm h]

theorem proceedChecked_honored_index (t : TaskInstanceState) (i : Nat)
    (k : YieldResume) (v : JSVal) (h1 : t.state.isFinished = false)
    (h2 : t.index = i) :
    (t.proceedChecked i k v).index = i + 2 := by
  by_cases hk : k = .YIELDABLE_CANCEL
  · simp only [TaskInstanceState.proceedChecked, h1, hk]
    simp [TaskInstanceState.advanceIndex, h2,
      TaskInstanceState.requestCancel_snd_eq,
      TaskInstanceState.proceedWithCancelAsync,
      TaskInstanceState.proceedAsync_eq]
    split <;> simp
  · simp only [TaskInstanceState.proceedChecked, h1, hk]
    simp [TaskInstanceState.advanceIndex, h2, hk,
      TaskInstanceState.proceedAsync_eq]

theorem honoredCount_zero (ticket : Nat) (t : TaskInstanceState)
    (h : ticket < t.index) (items : List SeqItem) :
    honoredCount ticket t items = 0 := by
  induction items generalizing t with
  | nil => rfl
  | cons item rest ih =>
      cases item with
      | attempt k v =>
          have hne : t.proceedChecked ticket k v = t :=
            proceedChecked_stale _ _ _ _ (Or.inr (by omega))
          simp [honoredCount, runItem, hne]
          exact ih t h
      | other op =>
          simp [honoredCount, runItem]
          exact ih _ (lt_of_lt_of_le h (index_le_runOp t op))

theorem at_most_one_honored (ticket : Nat) (t : TaskInstanceState)
    (items : List SeqItem) : honoredCount ticket t items ≤ 1 := by
  induction items generalizing t with
  | nil => simp [honoredCount]
  | cons item rest ih =>
      cases item with
      | other op =>
          simp [honoredCount, runItem]
          exact ih _
      | attempt k v =>
          by_cases hc : t.proceedChecked ticket k v = t
          · simp [honoredCount, runItem, hc]
            exact ih _
          · have h1 : t.state.isFinished = false := by
              rcases hf : t.state.isFinished with _ | _
              · rfl
              · exact absurd (proceedChecked_stale _ _ _ _ (Or.inl hf)) hc
            have h2 : t.index = ticket := by
              by_contra hne
              exact hc (proceedChecked_stale _ _ _ _
                (Or.inr (fun he => hne he.symm)))
            have h0 : honoredCount ticket (t.proceedChecked ticket k v) rest = 0 :=
              honoredCount_zero _ _
                (by rw [proceedChecked_honored_index t ticket k v h1 h2]; omega)
                rest
            simp [honoredCount, runItem, hc, h0]

/-- C4: The `index` field starts at 1 and never decreases: `advanceIndex`,
`proceedAsync`, `finalizeShared`, and every external operation built on them
(each `Op`, and any sequence of them) leaves `index` greater than or equal
to its previous value. -/
theorem index_monotone :
    (∀ g pt d e, (initialTIS g pt d e).index = 1) ∧
    (∀ (t : TaskInstanceState) (i : Nat),
       t.index ≤ (t.advanceIndex i).2.index) ∧
    (∀ (t : TaskInstanceState) (k : YieldResume) (v : JSVal),
       t.index ≤ (t.proceedAsync k v).index) ∧
    (∀ (t : TaskInstanceState) (p : StatePatch),
       t.index ≤ (t.finalizeShared p).index) ∧
    (∀ (t : TaskInstanceState) (op : Op), t.index ≤ (runOp t op).index) ∧
    (∀ (t : TaskInstanceState) (ops : List Op),
       t.index ≤ (runOps t ops).index) := by
  refine ⟨fun g pt d e => rfl, ?_, ?_, ?_, index_le_runOp, index_le_runOps⟩
  · intro t i
    rw [TaskInstanceState.advanceIndex_snd_index]
    split <;> omega
  · intro t k v
    rw [TaskInstanceState.index_proceedAsync]
    omega
  · intro t p
    rw [TaskInstanceState.index_finalizeShared]
    omega

/-- C1: A `proceedChecked(ticket, kind, value)` resumption changes the
engine's state only if the instance is not finished and the ticket equals
the current index when the attempt arrives (otherwise it is exactly the
identity, trace included); and along any interleaving of attempts presenting
one fixed captured ticket with arbitrary other operations, at most one
attempt is honored — all others leave the state unchanged. -/
theorem proceedChecked_single_resumption (t : TaskInstanceState)
    (ticket : Nat) :
    (∀ k v, t.state.isFinished = true ∨ ticket ≠ t.index →
       t.proceedChecked ticket k v = t) ∧
    (∀ items, honoredCount ticket t items ≤ 1) :=
  ⟨fun k v h => proceedChecked_stale t ticket k v h,
   fun items => at_most_one_honored ticket t items⟩

/-- Witness for `proceedChecked_single_resumption`: a stale ticket is a
no-op on a fresh instance, and two attempts with one ticket honor at most
one. -/
theorem proceedChecked_single_resumption_witness :
    TaskInstanceState.proceedChecked sample 5 .YIELDABLE_CONTINUE .empty =
      sample ∧
    honoredCount 5 sample
      [.attempt .YIELDABLE_CONTINUE .empty,
       .attempt .YIELDABLE_THROW .empty] ≤ 1 :=
  ⟨(proceedChecked_single_resumption sample 5).1 .YIELDABLE_CONTINUE .empty
     (Or.inr (by decide)),
   (proceedChecked_single_resumption sample 5).2 _⟩

/-! ## `asyncErrorsHandled` is never reset -/

namespace TaskInstanceState

theorem aeh_finalize (t : TaskInstanceState) (v : JSVal)
    (cs : CompletionState) :
    (t.finalize v cs).asyncErrorsHandled = t.asyncErrorsHandled := by
  by_cases h : t.cancelRequest.isSome = true
  · rw [finalize_some _ _ _ h, finalizeWithCancel_eq]
  · rw [finalize_none _ _ _ (by simpa using h), finalizeShared_eq]

theorem aeh_handleYieldedValue (t : TaskInstanceState) (sr : StepResult) :
    (t.handleYieldedValue sr).asyncErrorsHandled = t.asyncErrorsHandled := by
  unfold handleYieldedValue
  by_cases htr : sr.value.truthy = false
  · simp [htr, proceedWithSimpleValue, proceedAsync_eq]
  · rw [if_neg (by simp [htr])]
    rcases hri : sr.value.rawInner? with _ | inner
    · simp only []
      by_cases hy : sr.value.fields.yieldable.isSome = true
      · simp [hy, invokeYieldable_eq, addDisposer_eq]
      · by_cases ht : sr.value.fields.hasThen = true <;>
          simp [hy, ht, handleYieldedUnknownThenable, emit, addDisposer_eq,
            proceedWithSimpleValue, proceedAsync_eq]
    · simp [proceedWithSimpleValue, proceedAsync_eq]

theorem aeh_handleResolvedContinueValue (t : TaskInstanceState)
    (im : YieldResume) (rv : JSVal) :
    (t.handleResolvedContinueValue im rv).asyncErrorsHandled =
      t.asyncErrorsHandled := by
  unfold handleResolvedContinueValue
  rw [generatorStep_eq]
  simp [advanceIndex]
  split
  · rw [aeh_finalize]
  · rw [aeh_handleYieldedValue]

theorem aeh_handleResolvedReturnedValue (t : TaskInstanceState)
    (k : YieldResume) (v : JSVal) :
    (t.handleResolvedReturnedValue k v).asyncErrorsHandled =
      t.asyncErrorsHandled := by
  unfold handleResolvedReturnedValue
  cases k <;> simp [aeh_finalize]

theorem aeh_proceedSync (t : TaskInstanceState) (k : YieldResume) (v : JSVal) :
    (t.proceedSync k v).asyncErrorsHandled = t.asyncErrorsHandled := by
  unfold proceedSync
  split
  · rfl
  · simp only [dispose_eq]
    split
    · rw [aeh_handleResolvedReturnedValue]
    · rw [aeh_handleResolvedContinueValue]

theorem aeh_proceedChecked (t : TaskInstanceState) (i : Nat)
    (k : YieldResume) (v : JSVal) :
    (t.proceedChecked i k v).asyncErrorsHandled = t.asyncErrorsHandled := by
  unfold proceedChecked
  split
  · rfl
  · by_cases hi : t.index = i
    · simp [advanceIndex, hi]
      split
      · simp [requestCancel_snd_eq, proceedWithCancelAsync, proceedAsync_eq]
        split <;> rfl
      · simp [proceedAsync_eq]
    · simp [advanceIndex, hi]

theorem aeh_cancel (t : TaskInstanceState) (r : Option JSVal) :
    (t.cancel r).asyncErrorsHandled = t.asyncErrorsHandled := by
  unfold cancel
  rcases hr : t.requestCancel ⟨.CANCEL_KIND_EXPLICIT, r⟩ with ⟨ok, t1⟩
  have h1 : t1.asyncErrorsHandled = t.asyncErrorsHandled := by
    have h := requestCancel_snd_eq t ⟨.CANCEL_KIND_EXPLICIT, r⟩
    rw [hr] at h
    simp at h
    rw [h]
    split <;> rfl
  simp only []
  split
  · exact h1
  · split
    · simp [proceedWithCancelAsync, proceedAsync_eq, h1]
    · simp [finalizeWithCancel_eq, h1]

theorem aeh_start (t : TaskInstanceState) :
    t.start.asyncErrorsHandled = t.asyncErrorsHandled := by
  unfold start
  split
  · rfl
  · simp [setState_eq, emit, aeh_proceedSync]

theorem aeh_onFinalize (t : TaskInstanceState) (cb : Nat) :
    (t.onFinalize cb).asyncErrorsHandled = t.asyncErrorsHandled := by
  by_cases h : t.state.isFinished = true <;>
    simp [onFinalize, h, runFinalizeCallbacks_eq]

theorem aeh_promise (t : TaskInstanceState) (h : t.asyncErrorsHandled = true) :
    t.promise.asyncErrorsHandled = true := by
  by_cases hd : t.defer = false <;>
    simp [promise, hd, maybeResolveDefer_eq, h]

theorem aeh_onYielded (t : TaskInstanceState) (cb : Nat) :
    (t.onYielded cb).asyncErrorsHandled = true := by
  unfold onYielded
  rw [aeh_onFinalize]

theorem aeh_runAsyncAction (t : TaskInstanceState) (a : AsyncAction) :
    (t.runAsyncAction a).asyncErrorsHandled = t.asyncErrorsHandled := by
  cases a with
  | proceed k v => exact aeh_proceedSync t k v
  | unhandledErrorCheck =>
      simp only [runAsyncAction]
      split <;> simp [emit]

/-- `maybeThrowUnhandledTaskErrorLater` schedules nothing once the error is
marked handled. -/
theorem maybeThrow_handled (t : TaskInstanceState)
    (h : t.asyncErrorsHandled = true) :
    t.maybeThrowUnhandledTaskErrorLater = t := by
  rw [maybeThrowUnhandledTaskErrorLater_eq]
  have : unhandledQueue t.asyncErrorsHandled t.state = [] := by
    simp [unhandledQueue, h]
  rw [this]
  cases t
  simp

/-- The deferred unhandled-error check reports nothing once the error is
marked handled. -/
theorem unhandledErrorCheck_handled (t : TaskInstanceState)
    (h : t.asyncErrorsHandled = true) :
    t.runAsyncAction .unhandledErrorCheck = t := by
  simp only [runAsyncAction]
  rw [if_neg (by simp [h])]

end TaskInstanceState

theorem aeh_runOp (t : TaskInstanceState) (op : Op)
    (h : t.asyncErrorsHandled = true) :
    (runOp t op).asyncErrorsHandled = true := by
  cases op with
  | start => rw [show runOp t .start = t.start from rfl,
      TaskInstanceState.aeh_start, h]
  | cancel r => rw [show runOp t (.cancel r) = t.cancel r from rfl,
      TaskInstanceState.aeh_cancel, h]
  | proceedChecked i k v =>
      rw [show runOp t (.proceedChecked i k v) = t.proceedChecked i k v from rfl,
        TaskInstanceState.aeh_proceedChecked, h]
  | onFinalize cb =>
      rw [show runOp t (.onFinalize cb) = t.onFinalize cb from rfl,
        TaskInstanceState.aeh_onFinalize, h]
  | promise =>
      rw [show runOp t .promise = t.promise from rfl]
      exact TaskInstanceState.aeh_promise t h
  | onYielded cb =>
      rw [show runOp t (.onYielded cb) = t.onYielded cb from rfl]
      exact TaskInstanceState.aeh_onYielded t cb
  | runPendingAction =>
      show (match t.pending with
        | [] => t
        | a :: rest =>
            TaskInstanceState.runAsyncAction { t with pending := rest } a
        ).asyncErrorsHandled = true
      cases t.pending with
      | nil => exact h
      | cons a rest =>
          rw [TaskInstanceState.aeh_runAsyncAction]
          exact h

theorem aeh_runOps (t : TaskInstanceState) (ops : List Op)
    (h : t.asyncErrorsHandled = true) :
    (runOps t ops).asyncErrorsHandled = true := by
  induction ops generalizing t with
  | nil => exact h
  | cons op rest ih => exact ih (runOp t op) (aeh_runOp t op h)

/-- C10: Once a task instance is yielded into a parent (`onYielded`), its
uncaught-error reporting stays suppressed forever: after any further
sequence of external operations, `asyncErrorsHandled` is still set, the
deferred unhandled-error check is the identity (it reports nothing), and
`maybeThrowUnhandledTaskErrorLater` schedules nothing — so the Environment's
uncaught-error reporter is never invoked with the child's stored error even
if the child finishes with a non-cancellation error and no consumer ever
requests its deferred result. -/
theorem onYielded_suppresses_unhandled_report (t : TaskInstanceState)
    (cb : Nat) (ops : List Op) :
    (runOps (t.onYielded cb) ops).asyncErrorsHandled = true ∧
    TaskInstanceState.runAsyncAction (runOps (t.onYielded cb) ops)
        .unhandledErrorCheck = runOps (t.onYielded cb) ops ∧
    TaskInstanceState.maybeThrowUnhandledTaskErrorLater
        (runOps (t.onYielded cb) ops) = runOps (t.onYielded cb) ops := by
  have h : (runOps (t.onYielded cb) ops).asyncErrorsHandled = true :=
    aeh_runOps _ ops (TaskInstanceState.aeh_onYielded t cb)
  exact ⟨h, TaskInstanceState.unhandledErrorCheck_handled _ h,
    TaskInstanceState.maybeThrow_handled _ h⟩

/-! ## Finalization specs: what each entry point does to the finished flag,
the terminal-event count and the callback list -/

namespace TaskInstanceState

theorem finalizeWithCancel_spec (t : TaskInstanceState) :
    t.finalizeWithCancel.state.hasStarted = t.state.hasStarted ∧
    t.finalizeWithCancel.cancelRequest = t.cancelRequest ∧
    t.finalizeWithCancel.state.isFinished = true ∧
    terminalCount t.finalizeWithCancel.events = terminalCount t.events + 1 ∧
    t.finalizeWithCancel.finalizeCallbacks = [] := by
  rw [finalizeWithCancel_eq]
  refine ⟨?_, rfl, ?_, ?_, rfl⟩
  · simp [postFinalizeState_hasStarted, cancelPatch]
  · exact postFinalizeState_isFinished t cancelPatch
  · simp [terminalCount_append, terminalCount_debugLogEvents,
      terminalCount_deferEvents, terminalCount_terminalEvts,
      terminalCount_map_ranFinalizeCallback, terminalCount_cons,
      terminalCount_nil, Event.isTerminal, cancelPatch]

theorem finalize_spec (t : TaskInstanceState) (v : JSVal)
    (cs : CompletionState) :
    (t.finalize v cs).state.hasStarted = t.state.hasStarted ∧
    (t.finalize v cs).cancelRequest = t.cancelRequest ∧
    (t.finalize v cs).state.isFinished = true ∧
    terminalCount (t.finalize v cs).events = terminalCount t.events + 1 ∧
    (t.finalize v cs).finalizeCallbacks = [] := by
  by_cases h : t.cancelRequest.isSome = true
  · rw [finalize_some _ _ _ h]
    exact finalizeWithCancel_spec t
  · rw [finalize_none _ _ _ (by simpa using h), finalizeShared_eq]
    refine ⟨?_, rfl, ?_, ?_, rfl⟩
    · cases cs <;> simp [postFinalizeState_hasStarted, naturalPatch]
    · exact postFinalizeState_isFinished _ _
    · cases cs <;>
        simp [terminalCount_append, terminalCount_deferEvents,
          terminalCount_terminalEvts, terminalCount_map_ranFinalizeCallback,
          terminalCount_cons, terminalCount_nil, Event.isTerminal, naturalPatch]

theorem hyv_quiet (t : TaskInstanceState) (sr : StepResult) :
    (t.handleYieldedValue sr).state = t.state ∧
    (t.handleYieldedValue sr).cancelRequest = t.cancelRequest ∧
    (t.handleYieldedValue sr).finalizeCallbacks = t.finalizeCallbacks ∧
    terminalCount (t.handleYieldedValue sr).events = terminalCount t.events := by
  unfold handleYieldedValue
  by_cases htr : sr.value.truthy = false
  · simp [htr, proceedWithSimpleValue, proceedAsync_eq]
  · rw [if_neg (by simp [htr])]
    rcases hri : sr.value.rawInner? with _ | inner
    · simp only []
      by_cases hy : sr.value.fields.yieldable.isSome = true
      · simp [hy, invokeYieldable_eq, addDisposer_eq, terminalCount_append,
          terminalCount_yieldableEvents]
      · by_cases ht : sr.value.fields.hasThen = true <;>
          simp [hy, ht, handleYieldedUnknownThenable, emit, addDisposer_eq,
            proceedWithSimpleValue, proceedAsync_eq, terminalCount_append,
            terminalCount_cons, terminalCount_nil, Event.isTerminal]
    · simp [proceedWithSimpleValue, proceedAsync_eq]

theorem hrrv_spec (t : TaskInstanceState) (k : YieldResume) (v : JSVal)
    (h : t.state.isFinished = false) :
    (t.handleResolvedReturnedValue k v).state.hasStarted =
      t.state.hasStarted ∧
    (t.handleResolvedReturnedValue k v).cancelRequest = t.cancelRequest ∧
    (((t.handleResolvedReturnedValue k v).state.isFinished = false ∧
      terminalCount (t.handleResolvedReturnedValue k v).events =
        terminalCount t.events ∧
      (t.handleResolvedReturnedValue k v).finalizeCallbacks =
        t.finalizeCallbacks) ∨
     ((t.handleResolvedReturnedValue k v).state.isFinished = true ∧
      terminalCount (t.handleResolvedReturnedValue k v).events =
        terminalCount t.events + 1 ∧
      (t.handleResolvedReturnedValue k v).finalizeCallbacks = [])) := by
  unfold handleResolvedReturnedValue
  cases k with
  | YIELDABLE_CANCEL => exact ⟨rfl, rfl, Or.inl ⟨h, rfl, rfl⟩⟩
  | YIELDABLE_CONTINUE =>
      obtain ⟨f1, f2, f3, f4, f5⟩ := finalize_spec t v .COMPLETION_SUCCESS
      exact ⟨f1, f2, Or.inr ⟨f3, f4, f5⟩⟩
  | YIELDABLE_RETURN =>
      obtain ⟨f1, f2, f3, f4, f5⟩ := finalize_spec t v .COMPLETION_SUCCESS
      exact ⟨f1, f2, Or.inr ⟨f3, f4, f5⟩⟩
  | YIELDABLE_THROW =>
      obtain ⟨f1, f2, f3, f4, f5⟩ := finalize_spec t v .COMPLETION_ERROR
      exact ⟨f1, f2, Or.inr ⟨f3, f4, f5⟩⟩

theorem hrcv_spec (t : TaskInstanceState) (im : YieldResume) (rv : JSVal)
    (h : t.state.isFinished = false) :
    (t.handleResolvedContinueValue im rv).state.hasStarted =
      t.state.hasStarted ∧
    (t.handleResolvedContinueValue im rv).cancelRequest = t.cancelRequest ∧
    (((t.handleResolvedContinueValue im rv).state.isFinished = false ∧
      terminalCount (t.handleResolvedContinueValue im rv).events =
        terminalCount t.events ∧
      (t.handleResolvedContinueValue im rv).finalizeCallbacks =
        t.finalizeCallbacks) ∨
     ((t.handleResolvedContinueValue im rv).state.isFinished = true ∧
      terminalCount (t.handleResolvedContinueValue im rv).events =
        terminalCount t.events + 1 ∧
      (t.handleResolvedContinueValue im rv).finalizeCallbacks = [])) := by
  unfold handleResolvedContinueValue
  rw [generatorStep_eq]
  simp [advanceIndex]
  split
  · refine ⟨?_, ?_, Or.inr ⟨?_, ?_, ?_⟩⟩ <;>
      · simp [finalize_spec, terminalCount_append, terminalCount_cons,
          terminalCount_nil, Event.isTerminal, terminalCount_linkedWarnEvents]
  · refine ⟨?_, ?_, Or.inl ⟨?_, ?_, ?_⟩⟩ <;>
      · simp [hyv_quiet, h, terminalCount_append, terminalCount_cons,
          terminalCount_nil, Event.isTerminal, terminalCount_linkedWarnEvents]

theorem proceedSync_finished (t : TaskInstanceState) (k : YieldResume)
    (v : JSVal) (h : t.state.isFinished = true) :
    t.proceedSync k v = t := by
  unfold proceedSync
  rw [if_pos h]

theorem proceedChecked_finished (t : TaskInstanceState) (i : Nat)
    (k : YieldResume) (v : JSVal) (h : t.state.isFinished = true) :
    t.proceedChecked i k v = t := by
  unfold proceedChecked
  rw [if_pos h]

theorem cancel_finished (t : TaskInstanceState) (r : Option JSVal)
    (h : t.state.isFinished = true) :
    t.cancel r = t := by
  unfold cancel requestCancel
  rw [if_pos (Or.inr h)]
  rfl

theorem start_guard (t : TaskInstanceState)
    (h : t.state.hasStarted = true ∨ t.cancelRequest.isSome = true) :
    t.start = t := by
  unfold start
  rw [if_pos h]

theorem proceedSync_spec (t : TaskInstanceState) (k : YieldResume)
    (v : JSVal) :
    (t.proceedSync k v).state.hasStarted = t.state.hasStarted ∧
    (t.proceedSync k v).cancelRequest = t.cancelRequest ∧
    (((t.proceedSync k v).state.isFinished = t.state.isFinished ∧
      terminalCount (t.proceedSync k v).events = terminalCount t.events ∧
      (t.proceedSync k v).finalizeCallbacks = t.finalizeCallbacks) ∨
     (t.state.isFinished = false ∧
      (t.proceedSync k v).state.isFinished = true ∧
      terminalCount (t.proceedSync k v).events = terminalCount t.events + 1 ∧
      (t.proceedSync k v).finalizeCallbacks = [])) := by
  unfold proceedSync
  split
  · exact ⟨rfl, rfl, Or.inl ⟨rfl, rfl, rfl⟩⟩
  · rename_i hf
    have h : t.state.isFinished = false := by simpa using hf
    lift_lets
    extract_lets t1
    have h1 : t1.state = t.state := by
      show (t.dispose none).state = t.state
      rw [dispose_eq]
    have h2 : t1.cancelRequest = t.cancelRequest := by
      show (t.dispose none).cancelRequest = t.cancelRequest
      rw [dispose_eq]
    have h3 : t1.finalizeCallbacks = t.finalizeCallbacks := by
      show (t.dispose none).finalizeCallbacks = t.finalizeCallbacks
      rw [dispose_eq]
    have h4 : terminalCount t1.events = terminalCount t.events := by
      show terminalCount (t.dispose none).events = terminalCount t.events
      rw [dispose_eq]
      simp [terminalCount_append, terminalCount_map_ranDisposer]
    have h5 : t1.state.isFinished = false := by rw [h1]; exact h
    split
    · obtain ⟨a1, a2, a3 | a3⟩ := hrrv_spec t1 k v h5
      · exact ⟨by rw [a1, h1], by rw [a2, h2],
          Or.inl ⟨by rw [a3.1, h], by rw [a3.2.1, h4], by rw [a3.2.2, h3]⟩⟩
      · exact ⟨by rw [a1, h1], by rw [a2, h2],
          Or.inr ⟨h, a3.1, by rw [a3.2.1, h4], a3.2.2⟩⟩
    · obtain ⟨a1, a2, a3 | a3⟩ := hrcv_spec t1 k v h5
      · exact ⟨by rw [a1, h1], by rw [a2, h2],
          Or.inl ⟨by rw [a3.1, h], by rw [a3.2.1, h4], by rw [a3.2.2, h3]⟩⟩
      · exact ⟨by rw [a1, h1], by rw [a2, h2],
          Or.inr ⟨h, a3.1, by rw [a3.2.1, h4], a3.2.2⟩⟩

theorem proceedChecked_quiet (t : TaskInstanceState) (i : Nat)
    (k : YieldResume) (v : JSVal) :
    (t.proceedChecked i k v).state = t.state ∧
    (t.proceedChecked i k v).finalizeCallbacks = t.finalizeCallbacks ∧
    (t.proceedChecked i k v).events = t.events := by
  unfold proceedChecked
  split
  · exact ⟨rfl, rfl, rfl⟩
  · by_cases hi : t.index = i
    · simp [advanceIndex, hi]
      split
      · simp [requestCancel_snd_eq, proceedWithCancelAsync, proceedAsync_eq]
        split <;> simp
      · simp [proceedAsync_eq]
    · simp [advanceIndex, hi]

theorem cancel_cases (t : TaskInstanceState) (r : Option JSVal) :
    (t.cancel r = t) ∨
    (t.cancelRequest.isSome = false ∧ t.state.isFinished = false ∧
     ((t.state.hasStarted = true ∧
       t.cancel r =
         { t with
           cancelRequest := some ⟨.CANCEL_KIND_EXPLICIT, r⟩,
           index := t.index + 1,
           pending := t.pending ++ [.proceed .YIELDABLE_RETURN .sentinel] }) ∨
      (t.state.hasStarted = false ∧
       t.cancel r = TaskInstanceState.finalizeWithCancel
         { t with cancelRequest := some ⟨.CANCEL_KIND_EXPLICIT, r⟩ }))) := by
  by_cases hc : t.cancelRequest.isSome = true ∨ t.state.isFinished = true
  · left
    unfold cancel requestCancel
    rw [if_pos hc]
    rfl
  · have hcr : t.cancelRequest.isSome = false := by
      rcases hh : t.cancelRequest.isSome
      · rfl
      · exact absurd (Or.inl hh) hc
    have hf : t.state.isFinished = false := by
      rcases hh : t.state.isFinished
      · rfl
      · exact absurd (Or.inr hh) hc
    right
    refine ⟨hcr, hf, ?_⟩
    by_cases hs : t.state.hasStarted = true
    · left
      refine ⟨hs, ?_⟩
      unfold cancel requestCancel
      rw [if_neg hc]
      simp [hs, proceedWithCancelAsync, proceedAsync_eq]
    · right
      have hs' : t.state.hasStarted = false := by simpa using hs
      refine ⟨hs', ?_⟩
      unfold cancel requestCancel
      rw [if_neg hc]
      simp [hs']

theorem onFinalize_spec (t : TaskInstanceState) (cb : Nat) :
    (t.state.isFinished = false →
       t.onFinalize cb =
         { t with finalizeCallbacks := t.finalizeCallbacks ++ [cb] }) ∧
    (t.state.isFinished = true →
       t.onFinalize cb =
         { t with
           finalizeCallbacks := [],
           events := t.events ++
             (t.finalizeCallbacks ++ [cb]).map Event.ranFinalizeCallback ++
             deferEvents t.defer t.state,
           pending := t.pending ++
             unhandledQueue t.asyncErrorsHandled t.state } ) := by
  constructor <;> intro h <;>
    simp [onFinalize, h, runFinalizeCallbacks_eq]

theorem promise_eq (t : TaskInstanceState) :
    t.promise =
      if t.defer = false then
        { t with
          defer := true, asyncErrorsHandled := true,
          events := t.events ++ deferEvents true t.state }
      else t := by
  unfold promise
  split <;> simp [maybeResolveDefer_eq]

end TaskInstanceState

/-! ## Preservation of the reachable-state invariant -/

theorem Inv_initial (g : GeneratorState) (pt : PerformType) (d e : Bool) :
    Inv (initialTIS g pt d e) := by
  unfold Inv initialTIS
  refine ⟨fun _ => ⟨rfl, rfl⟩, ?_, ?_, fun _ => rfl, ?_⟩ <;> intro h <;> simp at h

theorem Inv_onFinalize (t : TaskInstanceState) (cb : Nat) (hI : Inv t) :
    Inv (t.onFinalize cb) := by
  obtain ⟨hA, hB, hC, hD, hE⟩ := hI
  by_cases hfin : t.state.isFinished = true
  · rw [(TaskInstanceState.onFinalize_spec t cb).2 hfin]
    refine ⟨?_, fun _ => hB hfin, ?_, ?_, fun _ => rfl⟩
    · intro hpre
      simp [hfin] at hpre
    · intro _
      simp [terminalCount_append, terminalCount_map_ranFinalizeCallback,
        terminalCount_deferEvents, terminalCount_cons, terminalCount_nil,
        Event.isTerminal, hC hfin]
    · intro hpre
      simp [hfin] at hpre
  · have hf : t.state.isFinished = false := by simpa using hfin
    rw [(TaskInstanceState.onFinalize_spec t cb).1 hf]
    refine ⟨fun hpre => hA hpre, hB, hC, hD, ?_⟩
    intro hfin'
    simp [hf] at hfin'

theorem Inv_runOp (op : Op) (t : TaskInstanceState) (hwf : op.wf)
    (hI : Inv t) : Inv (runOp t op) := by
  obtain ⟨hA, hB, hC, hD, hE⟩ := hI
  cases op with
  | start =>
      show Inv t.start
      unfold TaskInstanceState.start
      split
      · exact ⟨hA, hB, hC, hD, hE⟩
      · rename_i hg
        have hs : t.state.hasStarted = false := by
          cases h' : t.state.hasStarted with
          | false => rfl
          | true => exact absurd (Or.inl h') hg
        have hcr : t.cancelRequest.isSome = false := by
          cases h' : t.cancelRequest.isSome with
          | false => rfl
          | true => exact absurd (Or.inr h') hg
        have hf : t.state.isFinished = false := by
          cases hff : t.state.isFinished with
          | false => rfl
          | true =>
              rcases hB hff with hh | hh
              · rw [hs] at hh; exact absurd hh (by simp)
              · rw [hcr] at hh; exact absurd hh (by simp)
        lift_lets
        extract_lets t1 t2
        have ht1 : t1 = t.setState { hasStarted := some true } := rfl
        have ht2 : t2 = t1.proceedSync .YIELDABLE_CONTINUE .empty := rfl
        have ha1 : t1.state.hasStarted = true := by
          rw [ht1, TaskInstanceState.setState_eq]
          simp [applyPatch]
        have hf1 : t1.state.isFinished = t.state.isFinished := by
          rw [ht1, TaskInstanceState.setState_eq]
          simp [applyPatch]
        have hcb1 : t1.finalizeCallbacks = t.finalizeCallbacks := by
          rw [ht1, TaskInstanceState.setState_eq]
        have htc1 : terminalCount t1.events = terminalCount t.events := by
          rw [ht1, TaskInstanceState.setState_eq]
          simp [terminalCount_append, terminalCount_cons, terminalCount_nil,
            Event.isTerminal]
        obtain ⟨s1, s2, sd⟩ :=
          TaskInstanceState.proceedSync_spec t1 .YIELDABLE_CONTINUE .empty
        rw [← ht2] at s1 s2 sd
        refine ⟨?_, ?_, ?_, ?_, ?_⟩
        · intro hpre
          obtain ⟨hp1, _⟩ := hpre
          simp only [TaskInstanceState.emit] at hp1
          rw [s1, ha1] at hp1
          exact absurd hp1 (by simp)
        · intro _
          left
          show (TaskInstanceState.emit t2 .onStarted).state.hasStarted = true
          simp only [TaskInstanceState.emit]
          rw [s1, ha1]
        · intro hfin'
          simp only [TaskInstanceState.emit] at hfin'
          rcases sd with ⟨e1, _, _⟩ | ⟨_, _, e3, _⟩
          · rw [e1, hf1, hf] at hfin'
            exact absurd hfin' (by simp)
          · show terminalCount (TaskInstanceState.emit t2 .onStarted).events = 1
            simp only [TaskInstanceState.emit]
            rw [terminalCount_append, e3, htc1, hD hf]
            simp [terminalCount_cons, terminalCount_nil, Event.isTerminal]
        · intro hfin'
          simp only [TaskInstanceState.emit] at hfin'
          rcases sd with ⟨_, e2, _⟩ | ⟨_, e2, _, _⟩
          · show terminalCount (TaskInstanceState.emit t2 .onStarted).events = 0
            simp only [TaskInstanceState.emit]
            rw [terminalCount_append, e2, htc1, hD hf]
            simp [terminalCount_cons, terminalCount_nil, Event.isTerminal]
          · rw [e2] at hfin'
            exact absurd hfin' (by simp)
        · intro hfin'
          simp only [TaskInstanceState.emit] at hfin'
          rcases sd with ⟨e1, _, _⟩ | ⟨_, _, _, e4⟩
          · rw [e1, hf1, hf] at hfin'
            exact absurd hfin' (by simp)
          · show (TaskInstanceState.emit t2 .onStarted).finalizeCallbacks = []
            simp only [TaskInstanceState.emit]
            exact e4
  | cancel r =>
      show Inv (t.cancel r)
      rcases TaskInstanceState.cancel_cases t r with heq | ⟨hcr, hf, hcase⟩
      · rw [heq]
        exact ⟨hA, hB, hC, hD, hE⟩
      · rcases hcase with ⟨hs, heq⟩ | ⟨hs, heq⟩
        · rw [heq]
          refine ⟨?_, ?_, ?_, ?_, ?_⟩
          · intro hpre
            obtain ⟨hp1, _⟩ := hpre
            simp at hp1
            rw [hs] at hp1
            exact absurd hp1 (by simp)
          · intro hfin'
            simp at hfin'
            rw [hf] at hfin'
            exact absurd hfin' (by simp)
          · intro hfin'
            simp at hfin'
            rw [hf] at hfin'
            exact absurd hfin' (by simp)
          · intro _
            show terminalCount t.events = 0
            exact hD hf
          · intro hfin'
            simp at hfin'
            rw [hf] at hfin'
            exact absurd hfin' (by simp)
        · rw [heq]
          obtain ⟨f1, f2, f3, f4, f5⟩ := TaskInstanceState.finalizeWithCancel_spec
            { t with cancelRequest := some ⟨.CANCEL_KIND_EXPLICIT, r⟩ }
          refine ⟨?_, ?_, ?_, ?_, ?_⟩
          · intro hpre
            obtain ⟨_, hp2⟩ := hpre
            rw [f3] at hp2
            exact absurd hp2 (by simp)
          · intro _
            right
            rw [f2]
            rfl
          · intro _
            rw [f4]
            have h0 : terminalCount
                ({ t with cancelRequest := some ⟨.CANCEL_KIND_EXPLICIT, r⟩ } :
                  TaskInstanceState).events = 0 := hD hf
            rw [h0]
          · intro hfin'
            rw [f3] at hfin'
            exact absurd hfin' (by simp)
          · intro _
            exact f5
  | proceedChecked i k v =>
      show Inv (t.proceedChecked i k v)
      by_cases hfin : t.state.isFinished = true
      · rw [TaskInstanceState.proceedChecked_finished t i k v hfin]
        exact ⟨hA, hB, hC, hD, hE⟩
      · have hf : t.state.isFinished = false := by simpa using hfin
        by_cases hi : t.index = i
        · have hs : t.state.hasStarted = true := by
            cases hss : t.state.hasStarted with
            | true => rfl
            | false =>
                have hidx := (hA ⟨hss, hf⟩).1
                have hwf' : 2 ≤ i := hwf
                omega
          obtain ⟨q1, q2, q3⟩ := TaskInstanceState.proceedChecked_quiet t i k v
          refine ⟨?_, ?_, ?_, ?_, ?_⟩
          · intro hpre
            obtain ⟨hp1, _⟩ := hpre
            rw [q1, hs] at hp1
            exact absurd hp1 (by simp)
          · intro hfin'
            rw [q1, hf] at hfin'
            exact absurd hfin' (by simp)
          · intro hfin'
            rw [q1, hf] at hfin'
            exact absurd hfin' (by simp)
          · intro _
            rw [q3]
            exact hD hf
          · intro hfin'
            rw [q1, hf] at hfin'
            exact absurd hfin' (by simp)
        · rw [proceedChecked_stale t i k v (Or.inr (fun he => hi he.symm))]
          exact ⟨hA, hB, hC, hD, hE⟩
  | onFinalize cb =>
      exact Inv_onFinalize t cb ⟨hA, hB, hC, hD, hE⟩
  | promise =>
      show Inv t.promise
      rw [TaskInstanceState.promise_eq]
      split
      · refine ⟨fun hpre => hA hpre, hB, ?_, ?_, hE⟩
        · intro hfin'
          simp only []
          show terminalCount (t.events ++ deferEvents true t.state) = 1
          rw [terminalCount_append, terminalCount_deferEvents, hC hfin']
        · intro hfin'
          show terminalCount (t.events ++ deferEvents true t.state) = 0
          rw [terminalCount_append, terminalCount_deferEvents, hD hfin']
      · exact ⟨hA, hB, hC, hD, hE⟩
  | onYielded cb =>
      show Inv (({ t with asyncErrorsHandled := true } :
        TaskInstanceState).onFinalize cb)
      exact Inv_onFinalize _ cb ⟨hA, hB, hC, hD, hE⟩
  | runPendingAction =>
      show Inv (match t.pending with
        | [] => t
        | a :: rest =>
            TaskInstanceState.runAsyncAction { t with pending := rest } a)
      cases hp : t.pending with
      | nil => exact ⟨hA, hB, hC, hD, hE⟩
      | cons a rest =>
          have hsf : t.state.hasStarted = true ∨ t.state.isFinished = true := by
            cases hss : t.state.hasStarted with
            | true => exact Or.inl rfl
            | false =>
                cases hff : t.state.isFinished with
                | true => exact Or.inr rfl
                | false =>
                    have := (hA ⟨hss, hff⟩).2
                    rw [hp] at this
                    exact absurd this (by simp)
          cases a with
          | unhandledErrorCheck =>
              show Inv (TaskInstanceState.runAsyncAction
                { t with pending := rest } .unhandledErrorCheck)
              simp only [TaskInstanceState.runAsyncAction]
              split
              · refine ⟨?_, hB, ?_, ?_, hE⟩
                · intro hpre
                  have hp1 : t.state.hasStarted = false := hpre.1
                  have hp2 : t.state.isFinished = false := hpre.2
                  rcases hsf with hh | hh
                  · rw [hh] at hp1
                    exact absurd hp1 (by simp)
                  · rw [hh] at hp2
                    exact absurd hp2 (by simp)
                · intro hfin'
                  have hf' : t.state.isFinished = true := hfin'
                  show terminalCount (t.events ++
                    [.reportUncaughtRejection t.state.error]) = 1
                  rw [terminalCount_append, hC hf']
                  simp [terminalCount_cons, terminalCount_nil, Event.isTerminal]
                · intro hfin'
                  have hf' : t.state.isFinished = false := hfin'
                  show terminalCount (t.events ++
                    [.reportUncaughtRejection t.state.error]) = 0
                  rw [terminalCount_append, hD hf']
                  simp [terminalCount_cons, terminalCount_nil, Event.isTerminal]
              · refine ⟨?_, hB, hC, hD, hE⟩
                intro hpre
                have hp1 : t.state.hasStarted = false := hpre.1
                have hp2 : t.state.isFinished = false := hpre.2
                rcases hsf with hh | hh
                · rw [hh] at hp1
                  exact absurd hp1 (by simp)
                · rw [hh] at hp2
                  exact absurd hp2 (by simp)
          | proceed k v =>
              show Inv (({ t with pending := rest } :
                TaskInstanceState).proceedSync k v)
              by_cases hfin : t.state.isFinished = true
              · rw [TaskInstanceState.proceedSync_finished
                  { t with pending := rest } k v hfin]
                refine ⟨?_, hB, hC, hD, hE⟩
                intro hpre
                obtain ⟨_, hp2⟩ := hpre
                rw [show ({ t with pending := rest } :
                    TaskInstanceState).state = t.state from rfl, hfin] at hp2
                exact absurd hp2 (by simp)
              · have hf : t.state.isFinished = false := by simpa using hfin
                have hs : t.state.hasStarted = true := by
                  rcases hsf with hh | hh
                  · exact hh
                  · rw [hf] at hh; exact absurd hh (by simp)
                obtain ⟨s1, s2, sd⟩ := TaskInstanceState.proceedSync_spec
                  { t with pending := rest } k v
                refine ⟨?_, ?_, ?_, ?_, ?_⟩
                · intro hpre
                  obtain ⟨hp1, _⟩ := hpre
                  rw [s1] at hp1
                  rw [show ({ t with pending := rest } :
                      TaskInstanceState).state = t.state from rfl, hs] at hp1
                  exact absurd hp1 (by simp)
                · intro _
                  left
                  rw [s1]
                  exact hs
                · intro hfin'
                  rcases sd with ⟨e1, _, _⟩ | ⟨_, _, e3, _⟩
                  · rw [e1] at hfin'
                    rw [show ({ t with pending := rest } :
                        TaskInstanceState).state = t.state from rfl, hf] at hfin'
                    exact absurd hfin' (by simp)
                  · rw [e3]
                    have h0 : terminalCount ({ t with pending := rest } :
                        TaskInstanceState).events = 0 := hD hf
                    rw [h0]
                · intro hfin'
                  rcases sd with ⟨_, e2, _⟩ | ⟨_, e2, _, _⟩
                  · rw [e2]
                    exact hD hf
                  · rw [e2] at hfin'
                    exact absurd hfin' (by simp)
                · intro hfin'
                  rcases sd with ⟨e1, _, _⟩ | ⟨_, _, _, e4⟩
                  · rw [e1] at hfin'
                    rw [show ({ t with pending := rest } :
                        TaskInstanceState).state = t.state from rfl, hf] at hfin'
                    exact absurd hfin' (by simp)
                  · exact e4

theorem Inv_runOps (t : TaskInstanceState) (ops : List Op)
    (hwf : ∀ op ∈ ops, op.wf) (hI : Inv t) : Inv (runOps t ops) := by
  induction ops generalizing t with
  | nil => exact hI
  | cons op rest ih =>
      exact ih (runOp t op) (fun o ho => hwf o (List.mem_cons_of_mem _ ho))
        (Inv_runOp op t (hwf op (List.mem_cons_self _ _)) hI)

theorem ranFinalizeCallback_not_mem_deferEvents (c : Nat) (d : Bool)
    (st : SharedState) :
    Event.ranFinalizeCallback c ∉ deferEvents d st := by
  unfold deferEvents
  split
  · simp
  · split <;> simp

/-- C2: From a fresh instance, along any well-formed sequence of external
operations (resumption tickets are ones the engine could have issued, i.e.
at least 2): at most one terminal Delegate dispatch ever happens, there is
exactly one iff the instance is finished (so finalization is never reached a
second time), and once finished, `start`, `cancel`, `proceedChecked` and
`proceedSync` are all no-ops. -/
theorem finalization_exactly_once (g : GeneratorState) (pt : PerformType)
    (d e : Bool) (ops : List Op) (hwf : ∀ op ∈ ops, op.wf) :
    terminalCount (runOps (initialTIS g pt d e) ops).events ≤ 1 ∧
    ((runOps (initialTIS g pt d e) ops).state.isFinished = true ↔
      terminalCount (runOps (initialTIS g pt d e) ops).events = 1) ∧
    ((runOps (initialTIS g pt d e) ops).state.isFinished = true →
      ∀ (r : Option JSVal) (i : Nat) (k : YieldResume) (v : JSVal),
        (runOps (initialTIS g pt d e) ops).start =
          runOps (initialTIS g pt d e) ops ∧
        (runOps (initialTIS g pt d e) ops).cancel r =
          runOps (initialTIS g pt d e) ops ∧
        (runOps (initialTIS g pt d e) ops).proceedChecked i k v =
          runOps (initialTIS g pt d e) ops ∧
        (runOps (initialTIS g pt d e) ops).proceedSync k v =
          runOps (initialTIS g pt d e) ops) := by
  obtain ⟨hA, hB, hC, hD, hE⟩ :=
    Inv_runOps (initialTIS g pt d e) ops hwf (Inv_initial g pt d e)
  refine ⟨?_, ⟨fun hff => hC hff, ?_⟩, ?_⟩
  · cases hff : (runOps (initialTIS g pt d e) ops).state.isFinished with
    | true => rw [hC hff]
    | false => rw [hD hff]; omega
  · intro htc
    cases hff : (runOps (initialTIS g pt d e) ops).state.isFinished with
    | true => rfl
    | false => rw [hD hff] at htc; exact absurd htc (by omega)
  · intro hff r i k v
    exact ⟨TaskInstanceState.start_guard _ (hB hff),
      TaskInstanceState.cancel_finished _ r hff,
      TaskInstanceState.proceedChecked_finished _ i k v hff,
      TaskInstanceState.proceedSync_finished _ k v hff⟩

/-- Witness for `finalization_exactly_once` on a concrete run that starts
and then executes the scheduled first step. -/
theorem finalization_exactly_once_witness :
    terminalCount (runOps (initialTIS {} .PERFORM_TYPE_DEFAULT false false)
      [.start, .runPendingAction]).events ≤ 1 :=
  (finalization_exactly_once {} .PERFORM_TYPE_DEFAULT false false
    [.start, .runPendingAction] (by decide)).1

/-- C8: On any reachable instance: `onFinalize(cb)` registered after the
instance finished runs `cb` synchronously and exactly once (the per-`cb`
run count in the trace goes up by exactly one) and leaves the callback list
empty; registered before the finish it only appends `cb` to the list and
runs nothing; and `runFinalizeCallbacks` runs the registered callbacks in
registration order, appends nothing else that is a callback run, and clears
the list — so no callback ever runs twice. -/
theorem onFinalize_exactly_once (g : GeneratorState) (pt : PerformType)
    (d e : Bool) (ops : List Op) (hwf : ∀ op ∈ ops, op.wf) :
    ((runOps (initialTIS g pt d e) ops).state.isFinished = true →
       ∀ cb, cbCount cb ((runOps (initialTIS g pt d e) ops).onFinalize
             cb).events =
           cbCount cb (runOps (initialTIS g pt d e) ops).events + 1 ∧
         ((runOps (initialTIS g pt d e) ops).onFinalize cb).finalizeCallbacks
           = []) ∧
    ((runOps (initialTIS g pt d e) ops).state.isFinished = false →
       ∀ cb, ((runOps (initialTIS g pt d e) ops).onFinalize
             cb).finalizeCallbacks =
           (runOps (initialTIS g pt d e) ops).finalizeCallbacks ++ [cb] ∧
         ((runOps (initialTIS g pt d e) ops).onFinalize cb).events =
           (runOps (initialTIS g pt d e) ops).events) ∧
    (∀ s : TaskInstanceState, ∃ extra,
       s.runFinalizeCallbacks.events =
         s.events ++ s.finalizeCallbacks.map Event.ranFinalizeCallback ++
           extra ∧
       (∀ c, Event.ranFinalizeCallback c ∉ extra) ∧
       s.runFinalizeCallbacks.finalizeCallbacks = []) := by
  obtain ⟨hA, hB, hC, hD, hE⟩ :=
    Inv_runOps (initialTIS g pt d e) ops hwf (Inv_initial g pt d e)
  refine ⟨?_, ?_, ?_⟩
  · intro hff cb
    rw [(TaskInstanceState.onFinalize_spec _ cb).2 hff]
    refine ⟨?_, rfl⟩
    simp [hE hff, cbCount_append, cbCount_cons, cbCount_nil,
      cbCount_deferEvents]
  · intro hff cb
    rw [(TaskInstanceState.onFinalize_spec _ cb).1 hff]
    exact ⟨rfl, rfl⟩
  · intro s
    refine ⟨deferEvents s.defer s.state, ?_, ?_, ?_⟩
    · rw [TaskInstanceState.runFinalizeCallbacks_eq]
    · intro c
      exact ranFinalizeCallback_not_mem_deferEvents c s.defer s.state
    · rw [TaskInstanceState.runFinalizeCallbacks_eq]

/-- Witness for `onFinalize_exactly_once`: on an instance finished by a
pre-start cancel, a late `onFinalize 42` runs callback 42 exactly once. -/
theorem onFinalize_exactly_once_witness :
    cbCount 42 ((runOps (initialTIS {} .PERFORM_TYPE_DEFAULT false false)
        [.cancel none]).onFinalize 42).events =
      cbCount 42 (runOps (initialTIS {} .PERFORM_TYPE_DEFAULT false false)
        [.cancel none]).events + 1 :=
  ((onFinalize_exactly_once {} .PERFORM_TYPE_DEFAULT false false
      [.cancel none] (by decide)).1 (by decide) 42).1

end EmberConcurrency
